import Mathlib

/-!
Verification of the document-reconstruction pipeline of the larks-mcp server
(`src/tools.py`, `src/utils.py`).

The Python code manipulates parsed JSON (nested dicts/lists/strings/numbers).
We embed JSON values as the mutual inductive `Json` / `JsonArr` / `JsonObj`
below, and translate each Python function into a Lean function over `Json`.
Operations that can raise in Python (`d[k]`, `.get` on a non-dict, iterating a
non-iterable, `str.join` over non-strings) are modelled in `Except String`,
so that "the function throws" is visible as an `.error` result.
-/

mutual

inductive Json where
  | null : Json
  | bool : Bool → Json
  | num : Int → Json
  | str : String → Json
  | arr : JsonArr → Json
  | obj : JsonObj → Json

inductive JsonArr where
  | nil : JsonArr
  | cons : Json → JsonArr → JsonArr

inductive JsonObj where
  | nil : JsonObj
  | cons : String → Json → JsonObj → JsonObj

end

deriving instance DecidableEq for Json, JsonArr, JsonObj

deriving instance DecidableEq for Except

def JsonArr.toList : JsonArr → List Json
  | .nil => []
  | .cons h t => h :: t.toList

def JsonArr.ofList : List Json → JsonArr
  | [] => .nil
  | h :: t => .cons h (ofList t)

def JsonObj.lookup : JsonObj → String → Option Json
  | .nil, _ => none
  | .cons k v tl, key => if k = key then some v else tl.lookup key

def JsonObj.keys : JsonObj → List String
  | .nil => []
  | .cons k _ tl => k :: tl.keys

def JsonObj.ofList : List (String × Json) → JsonObj
  | [] => .nil
  | (k, v) :: t => .cons k v (ofList t)

/-- Convenience constructor for a JSON object from a key/value list. -/
def Json.mkObj (l : List (String × Json)) : Json := .obj (JsonObj.ofList l)

/-- Convenience constructor for a JSON array from a list. -/
def Json.mkArr (l : List Json) : Json := .arr (JsonArr.ofList l)

/-- Python truthiness of a JSON value (`if x:`): `None`, `False`, `0`, `""`,
`[]` and `{ }` are falsy, everything else truthy. -/
def Json.truthy : Json → Bool
  | .null => false
  | .bool b => b
  | .num n => n != 0
  | .str s => s != ""
  | .arr .nil => false
  | .arr _ => true
  | .obj .nil => false
  | .obj _ => true

def Json.isObj : Json → Bool
  | .obj _ => true
  | _ => false

def Json.isStr : Json → Bool
  | .str _ => true
  | _ => false

/-- Python `x == n` for an int literal `n`: true for the number `n` and for
booleans (`True == 1`, `False == 0`); every other JSON value compares unequal. -/
def Json.isNum (j : Json) (n : Int) : Bool :=
  match j with
  | .num m => m == n
  | .bool b => (if b then (1 : Int) else 0) == n
  | _ => false

/-- Field lookup on an object; `none` when the value is not an object. -/
def Json.objLookup (j : Json) (k : String) : Option Json :=
  match j with
  | .obj fs => fs.lookup k
  | _ => none

/-- Python `d.get(k, default)`: raises `AttributeError` when the receiver is
not a dict. -/
def Json.getd (j : Json) (k : String) (dflt : Json) : Except String Json :=
  match j with
  | .obj fs => .ok ((fs.lookup k).getD dflt)
  | _ => .error "AttributeError: object has no attribute get"

/-- Python `d[k]` subscription on a dict (always guarded by a `k in d` check in
the source, so the missing-key branch is unreachable there). -/
def Json.idx (j : Json) (k : String) : Except String Json :=
  match j with
  | .obj fs =>
    match fs.lookup k with
    | some v => .ok v
    | none => .error "KeyError"
  | _ => .error "TypeError: object is not subscriptable"

/-- Python `k in d`.  Every call site in the source applies this to a value
already known to be a dict (a `.get` on it succeeded first), so the non-dict
cases (substring test on `str`, `TypeError` on numbers) are unreachable and
collapsed to `false`. -/
def Json.member (j : Json) (k : String) : Bool :=
  match j with
  | .obj fs => (fs.lookup k).isSome
  | _ => false

/-- Python `for x in j`: lists iterate elements, strings iterate one-character
strings, dicts iterate keys; other values raise `TypeError`. -/
def Json.iter : Json → Except String (List Json)
  | .arr xs => .ok xs.toList
  | .str s => .ok (s.data.map (fun c => .str (String.singleton c)))
  | .obj fs => .ok (fs.keys.map .str)
  | _ => .error "TypeError: object is not iterable"

mutual

/-- Python `str(x)` for a JSON value (f-string interpolation). -/
def Json.pyStr : Json → String
  | .null => "None"
  | .bool true => "True"
  | .bool false => "False"
  | .num n => toString n
  | .str s => s
  | .arr xs => "[" ++ JsonArr.pyReprElems xs ++ "]"
  | .obj fs => "\x7b" ++ JsonObj.pyReprFields fs ++ "\x7d"

/-- Python `repr(x)` (used by `str` on the elements of containers). -/
def Json.pyRepr : Json → String
  | .null => "None"
  | .bool true => "True"
  | .bool false => "False"
  | .num n => toString n
  | .str s => "\x27" ++ s ++ "\x27"
  | .arr xs => "[" ++ JsonArr.pyReprElems xs ++ "]"
  | .obj fs => "\x7b" ++ JsonObj.pyReprFields fs ++ "\x7d"

def JsonArr.pyReprElems : JsonArr → String
  | .nil => ""
  | .cons h .nil => h.pyRepr
  | .cons h tl => h.pyRepr ++ ", " ++ JsonArr.pyReprElems tl

def JsonObj.pyReprFields : JsonObj → String
  | .nil => ""
  | .cons k v .nil => "\x27" ++ k ++ "\x27: " ++ v.pyRepr
  | .cons k v tl => "\x27" ++ k ++ "\x27: " ++ v.pyRepr ++ ", " ++ JsonObj.pyReprFields tl

end

/-! ## Generic list/dict helpers (insertion-ordered Python dicts keyed by JSON values) -/

def concatMapL {α β : Type} (f : α → List β) : List α → List β
  | [] => []
  | x :: xs => f x ++ concatMapL f xs

def enumFromL {α : Type} (i : Nat) : List α → List (Nat × α)
  | [] => []
  | x :: xs => (i, x) :: enumFromL (i + 1) xs

/-- Python `d[k] = v` on an insertion-ordered dict: update in place if the key
exists, else append at the end. -/
def dictInsert {α : Type} (d : List (Json × α)) (k : Json) (v : α) : List (Json × α) :=
  match d with
  | [] => [(k, v)]
  | (k', v') :: rest => if k' = k then (k', v) :: rest else (k', v') :: dictInsert rest k v

/-- Python `d.get(k)` on an insertion-ordered dict. -/
def dictLookup {α : Type} (d : List (Json × α)) (k : Json) : Option α :=
  match d with
  | [] => none
  | (k', v') :: rest => if k' = k then some v' else dictLookup rest k

/-- Keep the first occurrence of each value, in first-seen order (the
"one entry per distinct id, ordered by first-seen position" notion used by the
specification for block fetching and token resolution). -/
def dedupFirstAux (seen : List Json) : List Json → List Json
  | [] => []
  | x :: xs => if x ∈ seen then dedupFirstAux seen xs else x :: dedupFirstAux (seen ++ [x]) xs

def dedupFirst (l : List Json) : List Json := dedupFirstAux [] l

/-! ## `_column_number_to_letters` (src/tools.py lines 278-287) and its inverse -/

/-- `_column_number_to_letters`: the `while n > 0` loop prepends
`chr(65 + (n-1) % 26)` and continues with `(n-1) // 26`. -/
def columnNumberToLetters (n : Nat) : String :=
  if n = 0 then ""
  else columnNumberToLetters ((n - 1) / 26) ++ String.singleton (Char.ofNat (65 + (n - 1) % 26))
termination_by n
decreasing_by
  have h1 : (n - 1) / 26 ≤ n - 1 := Nat.div_le_self _ _
  omega

/-- Bijective base-26 decoding (A=1 .. Z=26), the mathematical inverse used to
state that the encoding is the standard zero-digit-free base-26 bijection. -/
def columnLettersToNumber (s : String) : Nat :=
  s.data.foldl (fun acc c => acc * 26 + (c.toNat - 64)) 0

/-! ## Image-format sniffing (src/tools.py `_download_and_compress_image`
lines 437-467 and `_download_board_image` lines 583-613) -/

/-- Python `sub in hay` (contiguous subsequence test, used for both the
content-type substring checks and the `b"WEBP" in image_data[:12]` check). -/
def containsSeq {α : Type} [DecidableEq α] (sub : List α) : List α → Bool
  | [] => sub.isEmpty
  | b :: tl => sub.isPrefixOf (b :: tl) || containsSeq sub tl

/-- Python `needle in hay` on strings (substring test). -/
def strContains (hay needle : String) : Bool := containsSeq needle.data hay.data

/-- Python `sub in hay` on byte strings. -/
def containsBytes (sub : List Nat) (hay : List Nat) : Bool := containsSeq sub hay

/-- Python `s.startswith(pre)`. -/
def pyStartswith (s pre : String) : Bool := pre.data.isPrefixOf s.data

/-- MIME-type sniffing of `_download_and_compress_image`: content-type header
first, then magic bytes, defaulting to JPEG.  Bytes are modelled as `List Nat`
(values < 256): JPEG `FF D8 FF`, PNG `89 P N G`, WEBP `RIFF..WEBP`,
GIF `G I F`. -/
def imageSniffMime (contentType : String) (data : List Nat) : String :=
  if strContains contentType "image/jpeg" || strContains contentType "image/jpg" then "image/jpeg"
  else if strContains contentType "image/png" then "image/png"
  else if strContains contentType "image/webp" then "image/webp"
  else if strContains contentType "image/gif" then "image/gif"
  else if [255, 216, 255].isPrefixOf data then "image/jpeg"
  else if [137, 80, 78, 71].isPrefixOf data then "image/png"
  else if [82, 73, 70, 70].isPrefixOf data && containsBytes [87, 69, 66, 80] (data.take 12) then "image/webp"
  else if [71, 73, 70].isPrefixOf data then "image/gif"
  else "image/jpeg"

/-- Extension table of `_download_and_compress_image` (`.get(mime_type, ".jpg")`). -/
def imageExtOfMime (mime : String) : String :=
  if mime = "image/jpeg" then ".jpg"
  else if mime = "image/png" then ".png"
  else if mime = "image/webp" then ".webp"
  else if mime = "image/gif" then ".gif"
  else ".jpg"

/-- Sniffed (MIME type, extension) pair chosen by the regular image download. -/
def imageSniff (contentType : String) (data : List Nat) : String × String :=
  let m := imageSniffMime contentType data
  (m, imageExtOfMime m)

/-- MIME-type sniffing of `_download_board_image`: identical branch structure,
but the undetectable-format default is PNG. -/
def boardSniffMime (contentType : String) (data : List Nat) : String :=
  if strContains contentType "image/jpeg" || strContains contentType "image/jpg" then "image/jpeg"
  else if strContains contentType "image/png" then "image/png"
  else if strContains contentType "image/webp" then "image/webp"
  else if strContains contentType "image/gif" then "image/gif"
  else if [255, 216, 255].isPrefixOf data then "image/jpeg"
  else if [137, 80, 78, 71].isPrefixOf data then "image/png"
  else if [82, 73, 70, 70].isPrefixOf data && containsBytes [87, 69, 66, 80] (data.take 12) then "image/webp"
  else if [71, 73, 70].isPrefixOf data then "image/gif"
  else "image/png"

/-- Extension table of `_download_board_image` (`.get(mime_type, ".png")`). -/
def boardExtOfMime (mime : String) : String :=
  if mime = "image/jpeg" then ".jpg"
  else if mime = "image/png" then ".png"
  else if mime = "image/webp" then ".webp"
  else if mime = "image/gif" then ".gif"
  else ".png"

/-- Sniffed (MIME type, extension) pair chosen by the board-snapshot download. -/
def boardSniff (contentType : String) (data : List Nat) : String × String :=
  let m := boardSniffMime contentType data
  (m, boardExtOfMime m)

/-! ## Spreadsheet markdown-table rendering (`_fetch_sheet_content`,
src/tools.py lines 1026-1044) -/

/-- `str(cell).replace` escaping each pipe on an already-stringified cell. -/
def escapePipes (s : String) : String :=
  String.mk (concatMapL (fun c => if c = '|' then ['\\', '|'] else [c]) s.data)

/-- Every pipe character in the list is immediately preceded by a backslash
(the "every literal pipe is escaped" property, stated as a scan). -/
def pipesEscapedAux (prevBackslash : Bool) : List Char → Bool
  | [] => true
  | c :: rest => if c == '|' && !prevBackslash then false else pipesEscapedAux (c == '\\') rest

def pipesEscaped (l : List Char) : Bool := pipesEscapedAux false l

/-- `padded_row = row + [""] * (column_count - len(row))` then `[:column_count]`. -/
def sheetPaddedRow (colCount : Nat) (row : List Json) : List Json :=
  (row ++ List.replicate (colCount - row.length) (Json.str "")).take colCount

/-- `escaped_row`: stringify and pipe-escape every padded cell. -/
def sheetRowCells (colCount : Nat) (row : List Json) : List String :=
  (sheetPaddedRow colCount row).map (fun cell => escapePipes cell.pyStr)

/-- `"| " + " | ".join(escaped_row) + " |"`. -/
def sheetRowLine (colCount : Nat) (row : List Json) : String :=
  "| " ++ String.intercalate " | " (sheetRowCells colCount row) ++ " |"

/-- `"|" + "|".join([" --- "] * column_count) + "|"`. -/
def sheetSeparatorLine (colCount : Nat) : String :=
  "|" ++ String.intercalate "|" (List.replicate colCount " --- ") ++ "|"

/-- `table_lines` built by the `for row_idx, row in enumerate(values)` loop:
the title line, then one line per row, with the header-separator line added
right after the row with index 0. -/
def sheetTableLines (title : Json) (colCount : Nat) (values : List (List Json)) : List String :=
  ("**Sheet: " ++ title.pyStr ++ "**\n") ::
    concatMapL
      (fun p => if p.1 = 0 then [sheetRowLine colCount p.2, sheetSeparatorLine colCount]
                else [sheetRowLine colCount p.2])
      (enumFromL 0 values)

/-! ## `_extract_text_from_elements` (src/tools.py lines 265-275) -/

/-- The `for elem in elements` loop: `text_run = elem.get("text_run", ...)`,
`content = text_run.get("content", "")`, truthy contents are collected. -/
def textPartsLoop (acc : List Json) : List Json → Except String (List Json)
  | [] => .ok acc
  | elem :: rest =>
    match elem.getd "text_run" (Json.mkObj []) with
    | .error e => .error e
    | .ok tr =>
      match tr.getd "content" (Json.str "") with
      | .error e => .error e
      | .ok content =>
        if content.truthy then textPartsLoop (acc ++ [content]) rest
        else textPartsLoop acc rest

/-- Python `"".join(text_parts)`: raises `TypeError` on a non-string part. -/
def joinStrParts (acc : String) : List Json → Except String String
  | [] => .ok acc
  | Json.str t :: rest => joinStrParts (acc ++ t) rest
  | _ => .error "TypeError: sequence item is not str"

def extractTextFromElements (elements : Json) : Except String String :=
  match elements.iter with
  | .error e => .error e
  | .ok elems =>
    match textPartsLoop [] elems with
    | .error e => .error e
    | .ok parts => joinStrParts "" parts

/-! ## `_extract_text_from_block` (src/tools.py lines 290-406) -/

/-- Shared shape of the page/text/heading/bullet/ordered branches:
`elements = block[key].get("elements", [])`, extract, then wrap the text. -/
def extractElemsBranch (block : Json) (key : String) (wrap : String → String) :
    Except String String :=
  match block.idx key with
  | .error e => .error e
  | .ok payload =>
    match payload.getd "elements" (Json.arr .nil) with
    | .error e => .error e
    | .ok elems =>
      match extractTextFromElements elems with
      | .error e => .error e
      | .ok t => .ok (wrap t)

/-- `pre + " " + text` when text is non-empty, else the empty string, (headings, bullet, ordered list). -/
def markWrap (pre : String) (t : String) : String :=
  if t != "" then pre ++ " " ++ t else ""

/-- The code branch (block_type 14): fenced block with the declared language,
looked up only when the code text is non-empty. -/
def codeBranch (block : Json) : Except String String :=
  match block.idx "code" with
  | .error e => .error e
  | .ok payload =>
    match payload.getd "elements" (Json.arr .nil) with
    | .error e => .error e
    | .ok elems =>
      match extractTextFromElements elems with
      | .error e => .error e
      | .ok codeText =>
        if codeText != "" then
          match payload.getd "style" (Json.mkObj []) with
          | .error e => .error e
          | .ok st =>
            match st.getd "language" (Json.str "") with
            | .error e => .error e
            | .ok lang => .ok ("```" ++ lang.pyStr ++ "\n" ++ codeText ++ "\n```")
        else .ok ""

/-- The image branch (block_type 27): a token placeholder. -/
def imageTextBranch (block : Json) : Except String String :=
  match block.idx "image" with
  | .error e => .error e
  | .ok payload =>
    match payload.getd "token" (Json.str "") with
    | .error e => .error e
    | .ok tok =>
      if tok.truthy then .ok ("[IMAGE_TOKEN:" ++ tok.pyStr ++ "]") else .ok ""

/-- The table branch (block_type 31): a bracketed size summary. -/
def tableTextBranch (block : Json) : Except String String :=
  match block.idx "table" with
  | .error e => .error e
  | .ok tableInfo =>
    match tableInfo.getd "property" (Json.mkObj []) with
    | .error e => .error e
    | .ok pr =>
      match pr.getd "row_size" (Json.num 0) with
      | .error e => .error e
      | .ok rs =>
        match pr.getd "column_size" (Json.num 0) with
        | .error e => .error e
        | .ok cs => .ok ("[TABLE: " ++ rs.pyStr ++ "x" ++ cs.pyStr ++ " cells]")

/-- The sheet branch (block_type 30): a token placeholder. -/
def sheetTextBranch (block : Json) : Except String String :=
  match block.idx "sheet" with
  | .error e => .error e
  | .ok payload =>
    match payload.getd "token" (Json.str "") with
    | .error e => .error e
    | .ok tok =>
      if tok.truthy then .ok ("[SHEET_TOKEN:" ++ tok.pyStr ++ "]") else .ok "[SHEET]"

/-- `_extract_text_from_block`: dispatch on `block.get("block_type")` through
the chain of `block_type == N and key in block` tests, returning the empty string for
any unmatched (unrecognized or textless) block. -/
def extractTextFromBlock (block : Json) : Except String String :=
  match block.getd "block_type" Json.null with
  | .error e => .error e
  | .ok bt =>
    if bt.isNum 1 && block.member "page" then extractElemsBranch block "page" (fun t => t)
    else if bt.isNum 2 && block.member "text" then extractElemsBranch block "text" (fun t => t)
    else if bt.isNum 3 && block.member "heading1" then extractElemsBranch block "heading1" (markWrap "#")
    else if bt.isNum 4 && block.member "heading2" then extractElemsBranch block "heading2" (markWrap "##")
    else if bt.isNum 5 && block.member "heading3" then extractElemsBranch block "heading3" (markWrap "###")
    else if bt.isNum 6 && block.member "heading4" then extractElemsBranch block "heading4" (markWrap "####")
    else if bt.isNum 7 && block.member "heading5" then extractElemsBranch block "heading5" (markWrap "#####")
    else if bt.isNum 8 && block.member "heading6" then extractElemsBranch block "heading6" (markWrap "######")
    else if bt.isNum 9 && block.member "heading7" then extractElemsBranch block "heading7" (markWrap "#######")
    else if bt.isNum 10 && block.member "heading8" then extractElemsBranch block "heading8" (markWrap "########")
    else if bt.isNum 11 && block.member "heading9" then extractElemsBranch block "heading9" (markWrap "#########")
    else if bt.isNum 12 && block.member "bullet" then extractElemsBranch block "bullet" (markWrap "-")
    else if bt.isNum 13 && block.member "ordered" then extractElemsBranch block "ordered" (markWrap "1.")
    else if bt.isNum 14 && block.member "code" then codeBranch block
    else if bt.isNum 27 && block.member "image" then imageTextBranch block
    else if bt.isNum 31 && block.member "table" then tableTextBranch block
    else if bt.isNum 30 && block.member "sheet" then sheetTextBranch block
    else if bt.isNum 43 && block.member "board" then .ok "[BOARD]"
    else .ok ""

/-! ## Well-shapedness (sufficient condition under which the extraction cannot
raise: payload fields that are examined are dicts, element lists are lists of
dicts whose text-run contents are strings or falsy) -/

def wellShapedElem (e : Json) : Bool :=
  e.isObj &&
    (match e.objLookup "text_run" with
     | none => true
     | some tr =>
       tr.isObj &&
         (match tr.objLookup "content" with
          | none => true
          | some c => c.isStr || !c.truthy))

def wellShapedElemsField (p : Json) : Bool :=
  match p.objLookup "elements" with
  | none => true
  | some (Json.arr xs) => xs.toList.all wellShapedElem
  | some _ => false

def wellShapedPayload (p : Json) : Bool :=
  p.isObj && wellShapedElemsField p &&
    (match p.objLookup "style" with | none => true | some st => st.isObj) &&
    (match p.objLookup "property" with | none => true | some pr => pr.isObj)

def payloadFieldKeys : List String :=
  ["page", "text", "heading1", "heading2", "heading3", "heading4", "heading5",
   "heading6", "heading7", "heading8", "heading9", "bullet", "ordered", "code",
   "image", "table", "sheet", "board"]

def wellShapedBlock (b : Json) : Bool :=
  b.isObj &&
    payloadFieldKeys.all fun k =>
      match b.objLookup k with
      | none => true
      | some p => wellShapedPayload p

/-! ## `_fetch_blocks_recursive` (src/tools.py lines 222-262)

A "page" is the `data` dict returned by one `_fetch_blocks_page` call.  The
`while True` pagination loop is modelled over the finite list of page payloads
the endpoint would return in order; the loop stops early exactly where the
source breaks (`has_more` falsy or `page_token` falsy), and the model also
stops when the supplied page list is exhausted. -/

/-- The `for block in items` accumulation into the `all_blocks` dict:
insert under `block.get("block_id")` when the id is truthy and unseen. -/
def processItems (acc : List (Json × Json)) : List Json → Except String (List (Json × Json))
  | [] => .ok acc
  | block :: rest =>
    match block.getd "block_id" Json.null with
    | .error e => .error e
    | .ok key =>
      if key.truthy && (dictLookup acc key).isNone then processItems (acc ++ [(key, block)]) rest
      else processItems acc rest

def fetchBlocksLoop (acc : List (Json × Json)) : List Json → Except String (List (Json × Json))
  | [] => .ok acc
  | pageData :: rest =>
    match pageData.getd "items" (Json.mkArr []) with
    | .error e => .error e
    | .ok items =>
      match items.iter with
      | .error e => .error e
      | .ok itemsL =>
        match processItems acc itemsL with
        | .error e => .error e
        | .ok acc' =>
          match pageData.getd "has_more" (Json.bool false) with
          | .error e => .error e
          | .ok hasMore =>
            match pageData.getd "page_token" Json.null with
            | .error e => .error e
            | .ok pageTok =>
              if hasMore.truthy && pageTok.truthy then fetchBlocksLoop acc' rest else .ok acc'

/-- `_fetch_blocks_recursive`: returns `list(all_blocks.values())`. -/
def fetchBlocksRecursive (pages : List Json) : Except String (List Json) :=
  match fetchBlocksLoop [] pages with
  | .error e => .error e
  | .ok acc => .ok (acc.map Prod.snd)

/-- The stream of truthy `block_id` values encountered by the same traversal,
in encounter order (specification-side notion used to state first-seen
deduplication). -/
def itemIdsLoop (ids : List Json) : List Json → Except String (List Json)
  | [] => .ok ids
  | block :: rest =>
    match block.getd "block_id" Json.null with
    | .error e => .error e
    | .ok key => if key.truthy then itemIdsLoop (ids ++ [key]) rest else itemIdsLoop ids rest

def idStreamLoop (ids : List Json) : List Json → Except String (List Json)
  | [] => .ok ids
  | pageData :: rest =>
    match pageData.getd "items" (Json.mkArr []) with
    | .error e => .error e
    | .ok items =>
      match items.iter with
      | .error e => .error e
      | .ok itemsL =>
        match itemIdsLoop ids itemsL with
        | .error e => .error e
        | .ok ids' =>
          match pageData.getd "has_more" (Json.bool false) with
          | .error e => .error e
          | .ok hasMore =>
            match pageData.getd "page_token" Json.null with
            | .error e => .error e
            | .ok pageTok =>
              if hasMore.truthy && pageTok.truthy then idStreamLoop ids' rest else .ok ids'

def blockIdStream (pages : List Json) : Except String (List Json) := idStreamLoop [] pages

/-- The `block_id` value carried by a block (null when absent). -/
def blockIdOf (b : Json) : Json := (b.objLookup "block_id").getD Json.null

/-! ## `_fetch_image_urls` (src/tools.py lines 789-855)

The network is abstracted by an oracle `urlFetch : Json → UrlFetchOutcome`
giving the outcome of the single `batch_get_tmp_download_url` GET issued for
one token: HTTP failure, nonzero API code, a raised exception, or a parsed
`tmp_download_urls` list of `(file_token, tmp_download_url)` pairs (URL values
are strings in this API).  All three failure outcomes hit a `continue`. -/

inductive UrlFetchOutcome where
  | httpFailure : UrlFetchOutcome
  | apiError : UrlFetchOutcome
  | exn : UrlFetchOutcome
  | ok : List (Json × String) → UrlFetchOutcome

deriving instance DecidableEq for UrlFetchOutcome

/-- The `for token in valid_tokens` loop; one GET per iteration. -/
def fetchImageUrlsLoop (urlFetch : Json → UrlFetchOutcome) (urls : List (Json × String)) :
    List Json → List (Json × String)
  | [] => urls
  | t :: rest =>
    match urlFetch t with
    | .httpFailure => fetchImageUrlsLoop urlFetch urls rest
    | .apiError => fetchImageUrlsLoop urlFetch urls rest
    | .exn => fetchImageUrlsLoop urlFetch urls rest
    | .ok entries =>
      fetchImageUrlsLoop urlFetch
        (entries.foldl (fun u p => if p.1.truthy && p.2 != "" then dictInsert u p.1 p.2 else u) urls)
        rest

def fetchImageUrls (urlFetch : Json → UrlFetchOutcome) (imageTokens : List Json) :
    List (Json × String) :=
  if imageTokens.isEmpty then []
  else
    let validTokens := imageTokens.filter Json.truthy
    if validTokens.isEmpty then [] else fetchImageUrlsLoop urlFetch [] validTokens

/-- Number of `client.get` calls issued by `_fetch_image_urls`: exactly one per
iteration of the loop over `valid_tokens` (the token list with falsy entries
filtered out, duplicates kept). -/
def fetchImageUrlsRequestCount (imageTokens : List Json) : Nat :=
  (imageTokens.filter Json.truthy).length

/-! ## `lark_docs` (src/tools.py lines 1094-1299), network abstracted by oracles -/

/-- Outcomes of the per-token network steps of one `docs` invocation:
`download url` is the filename returned by `_download_and_compress_image`;
`sheetFetch tok` the string returned by `_fetch_sheet_content` (that function
catches all exceptions and always returns a string); `boardParse tok` is
`_parse_board_nodes` applied to the fetched nodes when `_fetch_board_nodes`
returned truthy data (`none` when the fetch failed or the data was falsy);
`boardImage tok` the filename from `_download_board_image`; `mcpPort` the
`MCP_PORT` environment value (default `"48080"`). -/
structure DocsOracles where
  urlFetch : Json → UrlFetchOutcome
  download : String → Option String
  sheetFetch : Json → String
  boardParse : Json → Option String
  boardImage : Json → Option String
  mcpPort : String

/-- The token-extraction loop (lines 1102-1118): one `if/elif/elif` chain per
block, appending truthy image/sheet/board tokens in block order. -/
def extractTokensLoop (imgs sheets boards : List Json) :
    List Json → Except String (List Json × List Json × List Json)
  | [] => .ok (imgs, sheets, boards)
  | b :: rest =>
    match b.getd "block_type" Json.null with
    | .error e => .error e
    | .ok bt =>
      if bt.isNum 27 && b.member "image" then
        match b.idx "image" with
        | .error e => .error e
        | .ok payload =>
          match payload.getd "token" Json.null with
          | .error e => .error e
          | .ok tok =>
            if tok.truthy then extractTokensLoop (imgs ++ [tok]) sheets boards rest
            else extractTokensLoop imgs sheets boards rest
      else if bt.isNum 30 && b.member "sheet" then
        match b.idx "sheet" with
        | .error e => .error e
        | .ok payload =>
          match payload.getd "token" Json.null with
          | .error e => .error e
          | .ok tok =>
            if tok.truthy then extractTokensLoop imgs (sheets ++ [tok]) boards rest
            else extractTokensLoop imgs sheets boards rest
      else if bt.isNum 43 && b.member "board" then
        match b.idx "board" with
        | .error e => .error e
        | .ok payload =>
          match payload.getd "token" Json.null with
          | .error e => .error e
          | .ok tok =>
            if tok.truthy then extractTokensLoop imgs sheets (boards ++ [tok]) rest
            else extractTokensLoop imgs sheets boards rest
      else extractTokensLoop imgs sheets boards rest

def extractMediaTokens (blocks : List Json) :
    Except String (List Json × List Json × List Json) :=
  extractTokensLoop [] [] [] blocks

/-- The image download loop (lines 1132-1145): download URLs starting with
`http`, record `token -> filename` on success. -/
def downloadImages (download : String → Option String) (imageUrls : List (Json × String)) :
    List (Json × String) :=
  imageUrls.foldl
    (fun m p =>
      if p.2 != "" && pyStartswith p.2 "http" then
        match download p.2 with
        | some f => dictInsert m p.1 f
        | none => m
      else m)
    []

/-- The sheet loop (lines 1147-1156): `sheet_contents[token] = fetch(token)`. -/
def buildSheetContents (sheetFetch : Json → String) (sheetTokens : List Json) :
    List (Json × String) :=
  sheetTokens.foldl (fun m t => dictInsert m t (sheetFetch t)) []

/-- `board_token_to_index` (lines 1164-1166): `enumerate(board_tokens, start=1)`
written into a dict, so a repeated token keeps its **last** index. -/
def buildBoardIndex (boardTokens : List Json) : List (Json × Nat) :=
  (enumFromL 1 boardTokens).foldl (fun m p => dictInsert m p.2 p.1) []

/-- `board_contents` (lines 1168-1180): parsed text per token whose node fetch
yielded truthy data. -/
def buildBoardContents (boardParse : Json → Option String) (boardTokens : List Json) :
    List (Json × String) :=
  boardTokens.foldl
    (fun m t => match boardParse t with | some s => dictInsert m t s | none => m) []

/-- `board_filename_map` (lines 1182-1189): snapshot filename per token whose
image download succeeded. -/
def buildBoardFiles (boardImage : Json → Option String) (boardTokens : List Json) :
    List (Json × String) :=
  boardTokens.foldl
    (fun m t => match boardImage t with | some f => dictInsert m t f | none => m) []

/-- the resolved-image fragment with localhost static URL. -/
def imageResolvedFragment (n : Nat) (port fname : String) : String :=
  "[Image" ++ toString n ++ "](http://localhost:" ++ port ++ "/static/" ++ fname ++ ")"

/-- the remote-URL image fragment (fallback to the original remote URL). -/
def imageRemoteFragment (n : Nat) (u : String) : String :=
  "[Image" ++ toString n ++ "](" ++ u ++ ")"

/-- the unresolved-token image placeholder fragment. -/
def imageTokenFragment (n : Nat) (tok : Json) : String :=
  "[Image" ++ toString n ++ "](IMAGE_TOKEN:" ++ tok.pyStr ++ ")"

/-- the numbered board header fragment. -/
def boardHeaderFragment (n : Nat) : String := "**Board " ++ toString n ++ ":**\n"

/-- the board snapshot markdown-image fragment with localhost static URL. -/
def boardImageFragment (n : Nat) (port f : String) : String :=
  "\n![Board " ++ toString n ++ " Diagram](http://localhost:" ++ port ++ "/static/" ++ f ++ ")"

/-- The resolved-media maps consumed by the content-building loop. -/
structure RenderMaps where
  imageUrls : List (Json × String)
  imageFilenameMap : List (Json × String)
  sheetContents : List (Json × String)
  boardContents : List (Json × String)
  boardFilenameMap : List (Json × String)
  boardIndex : List (Json × Nat)
  mcpPort : String

/-- The two counters threaded through the content-building loop. -/
structure RenderState where
  imageCounter : Nat
  boardCounter : Nat

/-- One iteration of the content-building loop (lines 1200-1278): the fragment
list this block appends to `content_parts` (empty or a singleton) plus the
updated counters. -/
def renderBlock (M : RenderMaps) (st : RenderState) (b : Json) :
    Except String (RenderState × List String) :=
  match b.getd "block_type" Json.null with
  | .error e => .error e
  | .ok bt =>
    if bt.isNum 27 && b.member "image" then
      match b.idx "image" with
      | .error e => .error e
      | .ok payload =>
        match payload.getd "token" Json.null with
        | .error e => .error e
        | .ok tok =>
          if tok.truthy then
            let n := st.imageCounter + 1
            match dictLookup M.imageFilenameMap tok with
            | some fname =>
              .ok ({ st with imageCounter := n }, [imageResolvedFragment n M.mcpPort fname])
            | none =>
              match dictLookup M.imageUrls tok with
              | some u =>
                if u != "" && pyStartswith u "http" then
                  .ok ({ st with imageCounter := n }, [imageRemoteFragment n u])
                else
                  .ok ({ st with imageCounter := n }, [imageTokenFragment n tok])
              | none =>
                .ok ({ st with imageCounter := n }, [imageTokenFragment n tok])
          else .ok (st, [])
    else if bt.isNum 43 && b.member "board" then
      match b.idx "board" with
      | .error e => .error e
      | .ok payload =>
        match payload.getd "token" Json.null with
        | .error e => .error e
        | .ok tok =>
          if tok.truthy then
            let n0 := (dictLookup M.boardIndex tok).getD 0
            let bc := if n0 = 0 then st.boardCounter + 1 else st.boardCounter
            let n := if n0 = 0 then st.boardCounter + 1 else n0
            let withContent := [boardHeaderFragment n] ++
              (match dictLookup M.boardContents tok with | some s => [s] | none => [])
            let boardParts := withContent ++
              (match dictLookup M.boardFilenameMap tok with
               | some f => [boardImageFragment n M.mcpPort f]
               | none =>
                 if (dictLookup M.boardContents tok).isNone then
                   ["[BOARD_TOKEN:" ++ tok.pyStr ++ " - Unable to fetch]"]
                 else [])
            .ok ({ st with boardCounter := bc }, [String.intercalate "\n" boardParts])
          else
            .ok ({ st with boardCounter := st.boardCounter + 1 },
              [boardHeaderFragment (st.boardCounter + 1) ++ "[BOARD - No token]"])
    else if bt.isNum 30 && b.member "sheet" then
      match b.idx "sheet" with
      | .error e => .error e
      | .ok payload =>
        match payload.getd "token" Json.null with
        | .error e => .error e
        | .ok tok =>
          if tok.truthy then
            .ok (st, [(dictLookup M.sheetContents tok).getD ("[SHEET_TOKEN:" ++ tok.pyStr ++ "]")])
          else .ok (st, ["[SHEET]"])
    else
      match extractTextFromBlock b with
      | .error e => .error e
      | .ok text => .ok (st, if text != "" then [text] else [])

def buildPartsLoop (M : RenderMaps) (st : RenderState) (parts : List String) :
    List Json → Except String (List String)
  | [] => .ok parts
  | b :: rest =>
    match renderBlock M st b with
    | .error e => .error e
    | .ok (st', new) => buildPartsLoop M st' (parts ++ new) rest

/-- `content_parts` built over all blocks, starting from zeroed counters. -/
def buildContentParts (M : RenderMaps) (blocks : List Json) : Except String (List String) :=
  buildPartsLoop M ⟨0, 0⟩ [] blocks

/-- The structured result of one `docs` invocation (success flag, assembled
`content`, the fragment list it was joined from, and the raw resolution maps
returned under `raw_content`). -/
structure DocsResult where
  success : Bool
  error : Option String
  content : String
  contentParts : List String
  imageUrls : List (Json × String)
  imageFilenameMap : List (Json × String)
  boardContents : List (Json × String)
  boardFilenameMap : List (Json × String)
  boardTokens : List Json

deriving instance DecidableEq for DocsResult

/-- The body of `lark_docs` from the point where the flat block list is known
(lines 1102-1299): extract tokens, resolve media through the oracles, build
the content parts, join with a double newline. -/
def larkDocsCore (O : DocsOracles) (allBlocks : List Json) : Except String DocsResult :=
  match extractMediaTokens allBlocks with
  | .error e => .error e
  | .ok (imageTokens, sheetTokens, boardTokens) =>
    let imageUrls := if imageTokens.isEmpty then [] else fetchImageUrls O.urlFetch imageTokens
    let imageFilenameMap := if imageUrls.isEmpty then [] else downloadImages O.download imageUrls
    let sheetContents := if sheetTokens.isEmpty then [] else buildSheetContents O.sheetFetch sheetTokens
    let boardIndex := if boardTokens.isEmpty then [] else buildBoardIndex boardTokens
    let boardContents := if boardTokens.isEmpty then [] else buildBoardContents O.boardParse boardTokens
    let boardFilenameMap := if boardTokens.isEmpty then [] else buildBoardFiles O.boardImage boardTokens
    let M : RenderMaps :=
      ⟨imageUrls, imageFilenameMap, sheetContents, boardContents, boardFilenameMap, boardIndex, O.mcpPort⟩
    match buildContentParts M allBlocks with
    | .error e => .error e
    | .ok parts =>
      .ok { success := true, error := none, content := String.intercalate "\n\n" parts,
            contentParts := parts, imageUrls := imageUrls, imageFilenameMap := imageFilenameMap,
            boardContents := boardContents, boardFilenameMap := boardFilenameMap,
            boardTokens := boardTokens }

/-- The `except` fallback of `lark_docs`: any exception yields a
`success: False` result with an error message (the re-login details carried
alongside are not modelled). -/
def docsFailure (e : String) : DocsResult :=
  { success := false, error := some ("Request failed: " ++ e), content := "",
    contentParts := [], imageUrls := [], imageFilenameMap := [], boardContents := [],
    boardFilenameMap := [], boardTokens := [] }

/-- `lark_docs` after authentication: fetch all blocks, then run the core. -/
def larkDocs (O : DocsOracles) (pages : List Json) : DocsResult :=
  match fetchBlocksRecursive pages with
  | .error e => docsFailure e
  | .ok blocks =>
    match larkDocsCore O blocks with
    | .error e => docsFailure e
    | .ok r => r

/-! ## Concrete block/page builders and oracles used in claim statements -/

/-- An image block carrying `token` (block_type 27). -/
def imageBlock (t : Json) : Json :=
  Json.mkObj [("block_type", Json.num 27), ("image", Json.mkObj [("token", t)])]

/-- A board block carrying `token` (block_type 43). -/
def boardBlock (t : Json) : Json :=
  Json.mkObj [("block_type", Json.num 43), ("board", Json.mkObj [("token", t)])]

/-- A block of the given type whose payload holds one text run. -/
def textRunBlock (bt : Int) (key content : String) : Json :=
  Json.mkObj [("block_type", Json.num bt),
    (key, Json.mkObj [("elements", Json.mkArr
      [Json.mkObj [("text_run", Json.mkObj [("content", Json.str content)])]])])]

/-- A page payload with the given items and no further pagination. -/
def pageOf (items : List Json) : Json := Json.mkObj [("items", Json.mkArr items)]

/-- A page payload with the given items that reports more pages. -/
def pageOfMore (items : List Json) (tok : String) : Json :=
  Json.mkObj [("items", Json.mkArr items), ("has_more", Json.bool true),
    ("page_token", Json.str tok)]

/-- A type-27 block whose `image` payload is a plain string instead of a dict:
`.get` on the payload raises `AttributeError` for it. -/
def malformedImageBlock : Json :=
  Json.mkObj [("block_type", Json.num 27), ("image", Json.str "x")]

/-- Oracles in which every network resolution fails. -/
def failingOracles : DocsOracles :=
  ⟨fun _ => .httpFailure, fun _ => none, fun _ => "", fun _ => none, fun _ => none, "48080"⟩

/-- Oracles in which every board node-graph fetch parses to `"P"` and
everything else fails. -/
def boardParseOracles : DocsOracles :=
  ⟨fun _ => .httpFailure, fun _ => none, fun _ => "", fun _ => some "P", fun _ => none, "48080"⟩

/-- Oracles resolving exactly the image token `"t2"` (to `http://u`, which
downloads to `f.png`). -/
def splitImageOracles : DocsOracles :=
  ⟨fun t => if t = Json.str "t1" then .httpFailure else .ok [(Json.str "t2", "http://u")],
   fun u => if u = "http://u" then some "f.png" else none,
   fun _ => "", fun _ => none, fun _ => none, "48080"⟩

/-- Oracles resolving every image token to the same URL `http://u`, which
downloads to `f.png`. -/
def sameImageOracles : DocsOracles :=
  ⟨fun t => .ok [(t, "http://u")],
   fun u => if u = "http://u" then some "f.png" else none,
   fun _ => "", fun _ => none, fun _ => none, "48080"⟩

/-- Empty resolution maps (no media resolved). -/
def emptyRenderMaps : RenderMaps := ⟨[], [], [], [], [], [], "48080"⟩

/-- The contract of one entry of the block-fetch accumulator: the stored key
is the truthy `block_id` of the stored block. -/
def goodPair (p : Json × Json) : Prop := blockIdOf p.2 = p.1 ∧ p.1.truthy = true

/-- A minimal page item carrying only a `block_id`. -/
def idBlock (i : String) : Json := Json.mkObj [("block_id", Json.str i)]

/-- 1-based position of the **last** occurrence of `t` in the list, starting
the count at `i` (specification-side notion describing what
`board_token_to_index` actually stores). -/
def lastIndexFrom (i : Nat) (t : Json) : List Json → Option Nat
  | [] => none
  | x :: xs =>
    match lastIndexFrom (i + 1) t xs with
    | some n => some n
    | none => if x = t then some i else none

/-- Claim C8, amended: the board-snapshot download sniffs exactly as the image
download does whenever the format is detectable; on an undetectable format the
image path defaults to JPEG/.jpg while the board path defaults to PNG/.png. -/
theorem c8_claim (ct : String) (data : List Nat) :
    imageSniff ct data = boardSniff ct data ∨
      (imageSniff ct data = ("image/jpeg", ".jpg") ∧ boardSniff ct data = ("image/png", ".png")) := by
  unfold imageSniff boardSniff imageSniffMime boardSniffMime
  split_ifs <;> decide

theorem colLetters_succ (n : Nat) (h : n ≠ 0) :
    columnNumberToLetters n =
      columnNumberToLetters ((n - 1) / 26) ++ String.singleton (Char.ofNat (65 + (n - 1) % 26)) := by
  rw [columnNumberToLetters]
  simp [h]

theorem colLetters_zero : columnNumberToLetters 0 = "" := by
  rw [columnNumberToLetters]
  decide

theorem columnLettersToNumber_append_singleton (a : String) (c : Char) :
    columnLettersToNumber (a ++ String.singleton c) =
      columnLettersToNumber a * 26 + (c.toNat - 64) := by
  rcases a with ⟨l⟩
  show List.foldl _ 0 (l ++ [c]) = _
  rw [List.foldl_append]
  rfl

theorem char_toNat_ofNat_65 (r : Nat) (hr : r < 26) :
    (Char.ofNat (65 + r)).toNat = 65 + r := by
  interval_cases r <;> decide

theorem colRoundtrip : ∀ n : Nat, columnLettersToNumber (columnNumberToLetters n) = n := by
  intro n
  induction n using Nat.strong_induction_on with
  | _ n ih =>
    by_cases h : n = 0
    · subst h
      rw [colLetters_zero]
      decide
    · rw [colLetters_succ n h, columnLettersToNumber_append_singleton]
      have hlt : (n - 1) / 26 < n := by
        have h1 : (n - 1) / 26 ≤ n - 1 := Nat.div_le_self _ _
        omega
      rw [ih _ hlt]
      have hr : (n - 1) % 26 < 26 := Nat.mod_lt _ (by norm_num)
      rw [char_toNat_ofNat_65 _ hr]
      have hdm := Nat.div_add_mod (n - 1) 26
      omega

theorem colDigits : ∀ n : Nat, ∀ c ∈ (columnNumberToLetters n).data, 'A' ≤ c ∧ c ≤ 'Z' := by
  intro n
  induction n using Nat.strong_induction_on with
  | _ n ih =>
    by_cases h : n = 0
    · subst h; rw [colLetters_zero]; intro c hc; cases hc
    · rw [colLetters_succ n h]
      intro c hc
      have hdata : (columnNumberToLetters ((n - 1) / 26) ++
          String.singleton (Char.ofNat (65 + (n - 1) % 26))).data =
          (columnNumberToLetters ((n - 1) / 26)).data ++ [Char.ofNat (65 + (n - 1) % 26)] := by
        rcases hsplit : columnNumberToLetters ((n - 1) / 26) with ⟨l⟩
        rfl
      rw [hdata] at hc
      rcases List.mem_append.1 hc with h1 | h1
      · exact ih _ (by have := Nat.div_le_self (n - 1) 26; omega) c h1
      · rcases List.mem_singleton.1 h1 with rfl
        have hr : (n - 1) % 26 < 26 := Nat.mod_lt _ (by norm_num)
        set r := (n - 1) % 26 with hrdef
        clear_value r
        interval_cases r <;> exact ⟨by decide, by decide⟩

theorem sheetRowCells_length (colCount : Nat) (row : List Json) :
    (sheetRowCells colCount row).length = colCount := by
  simp [sheetRowCells, sheetPaddedRow]
  omega

theorem pipesEscapedAux_concatMapL (l : List Char) :
    ∀ prev : Bool,
      pipesEscapedAux prev (concatMapL (fun c => if c = '|' then ['\\', '|'] else [c]) l) = true := by
  induction l with
  | nil => intro prev; rfl
  | cons c tl ih =>
    intro prev
    by_cases hc : c = '|'
    · subst hc
      simp only [concatMapL, if_pos rfl, List.cons_append, List.nil_append]
      show pipesEscapedAux prev ('\\' :: '|' :: _) = true
      simp [pipesEscapedAux]
      exact ih _
    · simp only [concatMapL, if_neg hc, List.cons_append, List.nil_append]
      have hcb : (c == '|') = false := by simpa using hc
      simp [pipesEscapedAux, hcb]
      exact ih _

theorem pipesEscaped_escapePipes (s : String) : pipesEscaped (escapePipes s).data = true := by
  show pipesEscapedAux false _ = true
  exact pipesEscapedAux_concatMapL s.data false

theorem sheetRowCells_escaped (colCount : Nat) (row : List Json) (cell : String)
    (hc : cell ∈ sheetRowCells colCount row) : pipesEscaped cell.data = true := by
  rcases List.mem_map.1 hc with ⟨x, _, rfl⟩
  exact pipesEscaped_escapePipes _

theorem concatMapL_enumFrom_succ (rowLineF : List Json → String) (sep : String) :
    ∀ (rest : List (List Json)) (i : Nat),
      concatMapL (fun p => if p.1 = 0 then [rowLineF p.2, sep] else [rowLineF p.2])
          (enumFromL (i + 1) rest) = rest.map rowLineF := by
  intro rest
  induction rest with
  | nil => intro i; rfl
  | cons r rs ih =>
    intro i
    simp only [enumFromL, concatMapL, if_neg (Nat.succ_ne_zero i), List.map]
    rw [ih (i + 1)]
    rfl

theorem sheetTableLines_shape (title : Json) (colCount : Nat) (r : List Json)
    (rest : List (List Json)) :
    sheetTableLines title colCount (r :: rest) =
      ("**Sheet: " ++ title.pyStr ++ "**\n") :: sheetRowLine colCount r ::
        sheetSeparatorLine colCount :: rest.map (sheetRowLine colCount) := by
  simp only [sheetTableLines, enumFromL, concatMapL, if_pos rfl]
  rw [concatMapL_enumFrom_succ (sheetRowLine colCount) (sheetSeparatorLine colCount) rest 0]
  rfl

/-- Claim C6, confirmed: for a declared positive column count, every rendered row
has exactly `column_count` cells (short rows padded with empty cells, long
rows truncated), every literal pipe in a cell is escaped with a backslash, and
the header-separator line sits directly beneath the first data row. -/
theorem c6_claim (colCount : Nat) (hpos : 0 < colCount) :
    (∀ row : List Json, (sheetRowCells colCount row).length = colCount) ∧
    (∀ (row : List Json) (cell : String),
      cell ∈ sheetRowCells colCount row → pipesEscaped cell.data = true) ∧
    (∀ (title : Json) (r : List Json) (rest : List (List Json)),
      sheetTableLines title colCount (r :: rest) =
        ("**Sheet: " ++ title.pyStr ++ "**\n") :: sheetRowLine colCount r ::
          sheetSeparatorLine colCount :: rest.map (sheetRowLine colCount)) :=
  ⟨fun row => sheetRowCells_length colCount row,
   fun row cell hc => sheetRowCells_escaped colCount row cell hc,
   fun title r rest => sheetTableLines_shape title colCount r rest⟩

/-- Witness for claim C6 with two columns, a short row containing a pipe, and an
empty row. -/
theorem c6_witness :
    (0 < 2 ∧ (sheetRowCells 2 [Json.str "a|b"]).length = 2) ∧
    sheetTableLines (Json.str "T") 2 [[Json.str "a|b"], []] =
      ["**Sheet: T**\n", "| a\\|b |  |", "| --- | --- |", "|  |  |"] := by
  refine ⟨⟨by decide, (c6_claim 2 (by decide)).1 [Json.str "a|b"]⟩, ?_⟩
  rw [(c6_claim 2 (by decide)).2.2 (Json.str "T") [Json.str "a|b"] [[]]]
  decide

/-- Claim C9, confirmed: the column-letter encoding is the bijective base-26
representation over A..Z with no zero digit - the tabulated values hold, every
output digit is in A..Z, decoding is a left inverse, and the encoding is
injective on positive integers. -/
theorem c9_claim :
    (columnNumberToLetters 1 = "A" ∧ columnNumberToLetters 26 = "Z" ∧
     columnNumberToLetters 27 = "AA" ∧ columnNumberToLetters 52 = "AZ" ∧
     columnNumberToLetters 53 = "BA" ∧ columnNumberToLetters 702 = "ZZ" ∧
     columnNumberToLetters 703 = "AAA") ∧
    (∀ n : Nat, 1 ≤ n → ∀ c ∈ (columnNumberToLetters n).data, 'A' ≤ c ∧ c ≤ 'Z') ∧
    (∀ n : Nat, 1 ≤ n → columnLettersToNumber (columnNumberToLetters n) = n) ∧
    (∀ m n : Nat, 1 ≤ m → 1 ≤ n → columnNumberToLetters m = columnNumberToLetters n → m = n) := by
  refine ⟨⟨?_, ?_, ?_, ?_, ?_, ?_, ?_⟩, fun n _ => colDigits n, fun n _ => colRoundtrip n, ?_⟩
  · simp [columnNumberToLetters]; decide
  · simp [columnNumberToLetters]; decide
  · simp [columnNumberToLetters]; decide
  · simp [columnNumberToLetters]; decide
  · simp [columnNumberToLetters]; decide
  · simp [columnNumberToLetters]; decide
  · simp [columnNumberToLetters]; decide
  · intro m n h1 h2 heq
    have hm := colRoundtrip m
    rw [heq, colRoundtrip n] at hm
    omega

/-- Witness for claim C9 at concrete positive inputs. -/
theorem c9_witness :
    columnLettersToNumber (columnNumberToLetters 5) = 5 ∧ (3 : Nat) = 3 :=
  ⟨c9_claim.2.2.1 5 (by decide), c9_claim.2.2.2 3 3 (by decide) (by decide) rfl⟩

/-- Claim C8, counterexample: an empty content-type header with unrecognizable
body bytes makes the image download choose JPEG and the board download choose
PNG, so the two sniffing steps are not identical. -/
theorem c8_counterexample :
    imageSniff "" [104, 105] = ("image/jpeg", ".jpg") ∧
    boardSniff "" [104, 105] = ("image/png", ".png") ∧
    imageSniff "" [104, 105] ≠ boardSniff "" [104, 105] := by decide

/-- Claim C1, counterexample: with the same non-empty image token on two image
blocks, `_fetch_image_urls` issues two network requests, not the one request
per distinct token the claim asserts. -/
theorem c1_counterexample :
    fetchImageUrlsRequestCount [Json.str "t", Json.str "t"] = 2 ∧
    (dedupFirst ([Json.str "t", Json.str "t"].filter Json.truthy)).length = 1 ∧
    ¬ (fetchImageUrlsRequestCount [Json.str "t", Json.str "t"] =
        (dedupFirst ([Json.str "t", Json.str "t"].filter Json.truthy)).length) := by
  refine ⟨by decide, by decide, ?_⟩
  intro h
  rw [show fetchImageUrlsRequestCount [Json.str "t", Json.str "t"] = 2 from by decide,
    show (dedupFirst ([Json.str "t", Json.str "t"].filter Json.truthy)).length = 1 from by decide] at h
  exact absurd h (by decide)

theorem dictLookup_isSome_iff {α : Type} (d : List (Json × α)) (k : Json) :
    (dictLookup d k).isSome = true ↔ k ∈ d.map Prod.fst := by
  induction d with
  | nil => simp [dictLookup]
  | cons p rest ih =>
    rcases p with ⟨k', v'⟩
    by_cases hk : k' = k
    · subst hk; simp [dictLookup]
    · simp [dictLookup, hk, ih, Ne.symm hk]

theorem blockIdOf_of_getd (block key : Json)
    (h : block.getd "block_id" Json.null = .ok key) : blockIdOf block = key := by
  cases block <;> simp [Json.getd] at h <;> simp [blockIdOf, Json.objLookup, h]

theorem dedupFirstAux_append (t1 t2 : List Json) :
    ∀ seen, dedupFirstAux seen (t1 ++ t2) =
      dedupFirstAux seen t1 ++ dedupFirstAux (seen ++ dedupFirstAux seen t1) t2 := by
  induction t1 with
  | nil => intro seen; simp [dedupFirstAux]
  | cons x xs ih =>
    intro seen
    by_cases hx : x ∈ seen
    · simp only [List.cons_append, dedupFirstAux, if_pos hx]
      exact ih seen
    · simp only [List.cons_append, dedupFirstAux, if_neg hx]
      rw [show (xs.append t2 : List Json) = xs ++ t2 from rfl, ih (seen ++ [x])]
      simp [List.append_assoc]

theorem dedupFirstAux_nodup : ∀ (l seen : List Json), seen.Nodup →
    (seen ++ dedupFirstAux seen l).Nodup := by
  intro l
  induction l with
  | nil => intro seen hs; simpa [dedupFirstAux] using hs
  | cons x xs ih =>
    intro seen hs
    by_cases hx : x ∈ seen
    · simp only [dedupFirstAux, if_pos hx]
      exact ih seen hs
    · simp only [dedupFirstAux, if_neg hx]
      have hsx : (seen ++ [x]).Nodup := by
        rw [List.nodup_append]
        exact ⟨hs, List.nodup_singleton x, fun a ha hb => hx (by rwa [List.mem_singleton.1 hb] at ha)⟩
      have := ih (seen ++ [x]) hsx
      rwa [List.append_assoc, List.singleton_append] at this

theorem processItems_spec :
    ∀ (items : List Json) (acc : List (Json × Json)) (ids0 : List Json) (acc' : List (Json × Json)),
      processItems acc items = .ok acc' →
      ∃ tail : List Json,
        itemIdsLoop ids0 items = .ok (ids0 ++ tail) ∧
        acc'.map Prod.fst = acc.map Prod.fst ++ dedupFirstAux (acc.map Prod.fst) tail ∧
        ((∀ p ∈ acc, goodPair p) → ∀ p ∈ acc', goodPair p) := by
  intro items
  induction items with
  | nil =>
    intro acc ids0 acc' h
    simp only [processItems] at h
    cases h
    exact ⟨[], by simp [itemIdsLoop], by simp [dedupFirstAux], fun hinv => hinv⟩
  | cons block rest ih =>
    intro acc ids0 acc' h
    cases hg : block.getd "block_id" Json.null with
    | error e =>
      simp only [processItems, hg] at h
      exact Except.noConfusion h
    | ok key =>
      simp only [processItems, hg] at h
      by_cases hkt : key.truthy = true
      · cases hlk : dictLookup acc key with
        | some v =>
          rw [hlk] at h
          simp only [hkt, Option.isNone_some, Bool.and_false, Bool.false_eq_true,
            if_false] at h
          obtain ⟨tail, hids, hkeys, hinv⟩ := ih acc (ids0 ++ [key]) acc' h
          refine ⟨key :: tail, ?_, ?_, hinv⟩
          · simp only [itemIdsLoop, hg, hkt, if_true]
            rw [hids, List.append_assoc, List.singleton_append]
          · have hmem : key ∈ acc.map Prod.fst := by
              rw [← dictLookup_isSome_iff acc key, hlk]; rfl
            rw [hkeys]
            simp only [dedupFirstAux, if_pos hmem]
        | none =>
          rw [hlk] at h
          simp only [hkt, Option.isNone_none, Bool.and_true, if_true] at h
          obtain ⟨tail, hids, hkeys, hinv⟩ := ih (acc ++ [(key, block)]) (ids0 ++ [key]) acc' h
          refine ⟨key :: tail, ?_, ?_, ?_⟩
          · simp only [itemIdsLoop, hg, hkt, if_true]
            rw [hids, List.append_assoc, List.singleton_append]
          · have hmem : key ∉ acc.map Prod.fst := by
              intro hc
              have := (dictLookup_isSome_iff acc key).2 hc
              rw [hlk] at this
              cases this
            rw [hkeys]
            simp only [dedupFirstAux, if_neg hmem, List.map_append, List.map]
            rw [List.append_assoc, List.singleton_append]
          · intro hacc
            refine hinv ?_
            intro p hp
            rcases List.mem_append.1 hp with hp1 | hp1
            · exact hacc p hp1
            · rcases List.mem_singleton.1 hp1 with rfl
              exact ⟨blockIdOf_of_getd block key hg, hkt⟩
      · have hktf : key.truthy = false := by
          cases hkv : key.truthy
          · rfl
          · exact absurd hkv hkt
        simp only [hktf, Bool.false_and, Bool.false_eq_true, if_false] at h
        obtain ⟨tail, hids, hkeys, hinv⟩ := ih acc ids0 acc' h
        refine ⟨tail, ?_, hkeys, hinv⟩
        simp only [itemIdsLoop, hg, hktf, Bool.false_eq_true, if_false]
        exact hids

theorem fetchBlocksLoop_spec :
    ∀ (pages : List Json) (acc : List (Json × Json)) (ids0 : List Json) (acc' : List (Json × Json)),
      fetchBlocksLoop acc pages = .ok acc' →
      ∃ tail : List Json,
        idStreamLoop ids0 pages = .ok (ids0 ++ tail) ∧
        acc'.map Prod.fst = acc.map Prod.fst ++ dedupFirstAux (acc.map Prod.fst) tail ∧
        ((∀ p ∈ acc, goodPair p) → ∀ p ∈ acc', goodPair p) := by
  intro pages
  induction pages with
  | nil =>
    intro acc ids0 acc' h
    simp only [fetchBlocksLoop] at h
    cases h
    exact ⟨[], by simp [idStreamLoop], by simp [dedupFirstAux], fun hinv => hinv⟩
  | cons pageData rest ih =>
    intro acc ids0 acc' h
    cases hitems : pageData.getd "items" (Json.mkArr []) with
    | error e =>
      simp only [fetchBlocksLoop, hitems] at h
      exact Except.noConfusion h
    | ok items =>
      cases hiter : items.iter with
      | error e =>
        simp only [fetchBlocksLoop, hitems, hiter] at h
        exact Except.noConfusion h
      | ok itemsL =>
        cases hproc : processItems acc itemsL with
        | error e =>
          simp only [fetchBlocksLoop, hitems, hiter, hproc] at h
          exact Except.noConfusion h
        | ok acc1 =>
          cases hhm : pageData.getd "has_more" (Json.bool false) with
          | error e =>
            simp only [fetchBlocksLoop, hitems, hiter, hproc, hhm] at h
            exact Except.noConfusion h
          | ok hasMore =>
            cases hpt : pageData.getd "page_token" Json.null with
            | error e =>
              simp only [fetchBlocksLoop, hitems, hiter, hproc, hhm, hpt] at h
              exact Except.noConfusion h
            | ok pageTok =>
              simp only [fetchBlocksLoop, hitems, hiter, hproc, hhm, hpt] at h
              obtain ⟨t1, hids1, hkeys1, hinv1⟩ := processItems_spec itemsL acc ids0 acc1 hproc
              by_cases hcont : (hasMore.truthy && pageTok.truthy) = true
              · rw [if_pos hcont] at h
                obtain ⟨t2, hids2, hkeys2, hinv2⟩ := ih acc1 (ids0 ++ t1) acc' h
                refine ⟨t1 ++ t2, ?_, ?_, fun hacc => hinv2 (hinv1 hacc)⟩
                · simp only [idStreamLoop, hitems, hiter, hids1, hhm, hpt, if_pos hcont]
                  rw [hids2, List.append_assoc]
                · rw [hkeys2, hkeys1, dedupFirstAux_append, List.append_assoc]
              · rw [if_neg hcont] at h
                cases h
                refine ⟨t1, ?_, hkeys1, hinv1⟩
                simp only [idStreamLoop, hitems, hiter, hids1, hhm, hpt, if_neg hcont]

theorem fetchBlocksRecursive_spec (pages : List Json) (blocks : List Json)
    (h : fetchBlocksRecursive pages = .ok blocks) :
    ∃ (acc : List (Json × Json)) (ids : List Json),
      blocks = acc.map Prod.snd ∧
      blockIdStream pages = .ok ids ∧
      acc.map Prod.fst = dedupFirst ids ∧
      ∀ p ∈ acc, goodPair p := by
  unfold fetchBlocksRecursive at h
  cases hl : fetchBlocksLoop [] pages with
  | error e => rw [hl] at h; exact Except.noConfusion h
  | ok acc =>
    rw [hl] at h
    have hb : blocks = acc.map Prod.snd := by
      cases h; rfl
    obtain ⟨tail, hids, hkeys, hinv⟩ := fetchBlocksLoop_spec pages [] [] acc hl
    refine ⟨acc, tail, hb, by simpa [blockIdStream] using hids, ?_, ?_⟩
    · simpa [dedupFirst] using hkeys
    · exact hinv (fun p hp => absurd hp (List.not_mem_nil p))

/-- Claim C2, confirmed: whenever the paginated block fetch succeeds, the ids of
the returned blocks are exactly the first-occurrence deduplication of the
stream of truthy block ids encountered across the processed pages, in
first-seen order; a later page repeating an id adds no entry and does not
change the order. -/
theorem c2_claim (pages : List Json) (blocks : List Json)
    (h : fetchBlocksRecursive pages = .ok blocks) :
    ∃ ids : List Json, blockIdStream pages = .ok ids ∧
      blocks.map blockIdOf = dedupFirst ids := by
  obtain ⟨acc, ids, hb, hids, hkeys, hgood⟩ := fetchBlocksRecursive_spec pages blocks h
  refine ⟨ids, hids, ?_⟩
  rw [hb, List.map_map]
  rw [← hkeys]
  exact List.map_congr_left (fun p hp => (hgood p hp).1)

/-- Claim C10, confirmed: every block returned by the fetch has a truthy
`block_id`, these ids are pairwise distinct, and an item whose id is absent or
empty never appears in the returned list. -/
theorem c10_claim (pages : List Json) (blocks : List Json)
    (h : fetchBlocksRecursive pages = .ok blocks) :
    (∀ b ∈ blocks, (blockIdOf b).truthy = true) ∧
    (blocks.map blockIdOf).Nodup ∧
    (∀ j : Json, (blockIdOf j).truthy = false → j ∉ blocks) := by
  obtain ⟨acc, ids, hb, hids, hkeys, hgood⟩ := fetchBlocksRecursive_spec pages blocks h
  have htr : ∀ b ∈ blocks, (blockIdOf b).truthy = true := by
    intro b hbm
    rw [hb] at hbm
    rcases List.mem_map.1 hbm with ⟨p, hp, rfl⟩
    rw [(hgood p hp).1]
    exact (hgood p hp).2
  refine ⟨htr, ?_, ?_⟩
  · have hmap : blocks.map blockIdOf = dedupFirst ids := by
      rw [hb, List.map_map, ← hkeys]
      exact List.map_congr_left (fun p hp => (hgood p hp).1)
    rw [hmap]
    have := dedupFirstAux_nodup ids [] List.nodup_nil
    simpa [dedupFirst] using this
  · intro j hj hmem
    rw [htr j hmem] at hj
    cases hj

/-- Witness for claim C2: two pages where page 2 repeats id "b" from page 1. -/
theorem c2_witness :
    ∃ ids : List Json,
      blockIdStream [pageOfMore [idBlock "a", idBlock "b"] "p", pageOf [idBlock "b", idBlock "c"]] =
        .ok ids ∧
      ([idBlock "a", idBlock "b", idBlock "c"].map blockIdOf) = dedupFirst ids :=
  c2_claim _ _ (by decide)

/-- Witness for claim C10 on a page containing an empty-id item that is dropped. -/
theorem c10_witness :
    (∀ b ∈ [idBlock "a", idBlock "b"],
      (blockIdOf b).truthy = true) ∧
    (([idBlock "a", idBlock "b"].map blockIdOf)).Nodup ∧
    (∀ j : Json, (blockIdOf j).truthy = false → j ∉ [idBlock "a", idBlock "b"]) :=
  c10_claim [pageOf [idBlock "a", Json.mkObj [("block_id", Json.str "")], idBlock "b", idBlock "a"]] _
    (by decide)

theorem renderBlock_frag_le_one (M : RenderMaps) (st : RenderState) (b : Json)
    (p : RenderState × List String) (h : renderBlock M st b = .ok p) : p.2.length ≤ 1 := by
  unfold renderBlock at h
  repeat' split at h
  all_goals first
    | exact Except.noConfusion h
    | (simp only [Except.ok.injEq] at h; subst h; simp)

theorem buildPartsLoop_shape :
    ∀ (blocks : List Json) (M : RenderMaps) (st : RenderState) (acc res : List String),
      buildPartsLoop M st acc blocks = .ok res →
      ∃ frags : List (List String),
        frags.length = blocks.length ∧ (∀ f ∈ frags, f.length ≤ 1) ∧
        res = acc ++ concatMapL id frags := by
  intro blocks
  induction blocks with
  | nil =>
    intro M st acc res h
    simp only [buildPartsLoop] at h
    cases h
    exact ⟨[], rfl, by simp, by simp [concatMapL]⟩
  | cons b rest ih =>
    intro M st acc res h
    cases hr : renderBlock M st b with
    | error e =>
      simp only [buildPartsLoop, hr] at h
      exact Except.noConfusion h
    | ok p =>
      rcases p with ⟨st2, new⟩
      simp only [buildPartsLoop, hr] at h
      obtain ⟨frags, hlen, hle, hres⟩ := ih M st2 (acc ++ new) res h
      refine ⟨new :: frags, by simp [hlen], ?_, ?_⟩
      · intro f hf
        rcases List.mem_cons.1 hf with rfl | hf2
        · exact renderBlock_frag_le_one M st b (st2, f) hr
        · exact hle f hf2
      · rw [hres]
        simp [concatMapL, List.append_assoc]

theorem concatMapL_id_length_le (frags : List (List String))
    (h : ∀ f ∈ frags, f.length ≤ 1) : (concatMapL id frags).length ≤ frags.length := by
  induction frags with
  | nil => simp [concatMapL]
  | cons f rest ih =>
    simp only [concatMapL, List.length_append, List.length_cons, id]
    have h1 := h f (List.mem_cons_self f rest)
    have h2 := ih (fun g hg => h g (List.mem_cons_of_mem f hg))
    omega

/-- Claim C3, amended: the content-building loop emits at most one fragment per
block, in original block order (the fragment list is the concatenation of one
length-at-most-one fragment list per block); blocks rendering empty text are
skipped, so the count can be below the block count. -/
theorem c3_claim (M : RenderMaps) (blocks : List Json) (parts : List String)
    (h : buildContentParts M blocks = .ok parts) :
    parts.length ≤ blocks.length ∧
    ∃ frags : List (List String),
      frags.length = blocks.length ∧ (∀ f ∈ frags, f.length ≤ 1) ∧
      parts = concatMapL id frags := by
  obtain ⟨frags, hlen, hle, hres⟩ := buildPartsLoop_shape blocks M ⟨0, 0⟩ [] parts h
  rw [List.nil_append] at hres
  refine ⟨?_, frags, hlen, hle, hres⟩
  rw [hres, ← hlen]
  exact concatMapL_id_length_le frags hle

/-- Claim C3, counterexample: a single unrecognized-type block produces zero
fragments, not the one-empty-fragment-per-block the claim asserts. -/
theorem c3_counterexample :
    buildContentParts emptyRenderMaps [Json.mkObj [("block_type", Json.num 999)]] = .ok [] ∧
    ¬ (([] : List String).length = [Json.mkObj [("block_type", Json.num 999)]].length) :=
  ⟨by decide, by decide⟩

/-- Witness for the amended claim C3 on a one-block document. -/
theorem c3_witness :
    (["hi"] : List String).length ≤ [textRunBlock 2 "text" "hi"].length ∧
    ∃ frags : List (List String),
      frags.length = [textRunBlock 2 "text" "hi"].length ∧ (∀ f ∈ frags, f.length ≤ 1) ∧
      ["hi"] = concatMapL id frags :=
  c3_claim emptyRenderMaps [textRunBlock 2 "text" "hi"] ["hi"] (by decide)

theorem dictLookup_dictInsert {α : Type} (m : List (Json × α)) (k t : Json) (v : α) :
    dictLookup (dictInsert m k v) t = if k = t then some v else dictLookup m t := by
  induction m with
  | nil => simp [dictInsert, dictLookup]
  | cons p rest ih =>
    rcases p with ⟨k0, v0⟩
    by_cases hk0 : k0 = k
    · subst hk0
      by_cases hkt : k0 = t <;> simp [dictInsert, dictLookup, hkt]
    · by_cases h0t : k0 = t
      · subst h0t
        have : k ≠ k0 := Ne.symm hk0
        simp [dictInsert, dictLookup, hk0, this]
      · simp [dictInsert, dictLookup, hk0, h0t, ih]

theorem dictLookup_boardIndexFold (t : Json) :
    ∀ (l : List Json) (i : Nat) (m : List (Json × Nat)),
      dictLookup ((enumFromL i l).foldl (fun m p => dictInsert m p.2 p.1) m) t =
        (match lastIndexFrom i t l with
         | some n => some n
         | none => dictLookup m t) := by
  intro l
  induction l with
  | nil => intro i m; simp [enumFromL, lastIndexFrom]
  | cons x xs ih =>
    intro i m
    simp only [enumFromL, List.foldl, lastIndexFrom]
    rw [ih (i + 1)]
    cases lastIndexFrom (i + 1) t xs with
    | some n => rfl
    | none => by_cases hx : x = t <;> simp [dictLookup_dictInsert, hx]

theorem buildBoardIndex_lookup (toks : List Json) (t : Json) :
    dictLookup (buildBoardIndex toks) t = lastIndexFrom 1 t toks := by
  unfold buildBoardIndex
  rw [dictLookup_boardIndexFold]
  cases lastIndexFrom 1 t toks <;> simp [dictLookup]

theorem c5_scenario (O : DocsOracles) (a b : Json) (sa sb : String)
    (ha : a.truthy = true) (hb : b.truthy = true) (hab : a ≠ b)
    (hpa : O.boardParse a = some sa) (hpb : O.boardParse b = some sb)
    (hia : O.boardImage a = none) (hib : O.boardImage b = none) :
    ∃ r, larkDocsCore O [boardBlock a, boardBlock b, boardBlock a] = .ok r ∧
      r.contentParts =
        [String.intercalate "\n" [boardHeaderFragment 3, sa],
         String.intercalate "\n" [boardHeaderFragment 2, sb],
         String.intercalate "\n" [boardHeaderFragment 3, sa]] := by
  have hex : extractMediaTokens [boardBlock a, boardBlock b, boardBlock a] =
      .ok ([], [], [a, b, a]) := by
    simp [extractMediaTokens, extractTokensLoop, boardBlock, Json.getd, Json.idx, Json.member,
      Json.mkObj, JsonObj.ofList, JsonObj.lookup, Json.isNum, ha, hb]
  have hidx : buildBoardIndex [a, b, a] = [(a, 3), (b, 2)] := by
    simp [buildBoardIndex, enumFromL, dictInsert, hab, Ne.symm hab]
  have hcontents : buildBoardContents O.boardParse [a, b, a] = [(a, sa), (b, sb)] := by
    simp [buildBoardContents, hpa, hpb, dictInsert, hab, Ne.symm hab]
  have hfiles : buildBoardFiles O.boardImage [a, b, a] = [] := by
    simp [buildBoardFiles, hia, hib]
  have hrender : ∀ M : RenderMaps, M.boardContents = [(a, sa), (b, sb)] →
      M.boardFilenameMap = [] → M.boardIndex = [(a, 3), (b, 2)] →
      buildContentParts M [boardBlock a, boardBlock b, boardBlock a] =
        .ok [String.intercalate "\n" [boardHeaderFragment 3, sa],
             String.intercalate "\n" [boardHeaderFragment 2, sb],
             String.intercalate "\n" [boardHeaderFragment 3, sa]] := by
    intro M h1 h2 h3
    simp [buildContentParts, buildPartsLoop, renderBlock, boardBlock, Json.getd, Json.idx,
      Json.member, Json.mkObj, JsonObj.ofList, JsonObj.lookup, Json.isNum, ha, hb,
      dictLookup, hab, Ne.symm hab, h1, h2, h3]
  unfold larkDocsCore
  rw [hex]
  simp only [List.isEmpty_cons, List.isEmpty_nil, Bool.false_eq_true, if_false, if_true,
    hidx, hcontents, hfiles]
  rw [hrender _ (by simp) (by simp) (by simp)]
  exact ⟨_, rfl, rfl⟩

theorem startsWith_http_ne_empty (u : String) (h : pyStartswith u "http" = true) :
    u ≠ "" := by
  intro he
  subst he
  exact absurd h (by decide)

/-- Claim C4, confirmed: when resolving one image token fails (HTTP failure, API
error, or exception) and another resolves and downloads successfully, the core
pipeline returns a success result in which the failed token renders as a
token placeholder and the successful token renders as a resolved local URL. -/
theorem c4_claim (O : DocsOracles) (t1 t2 : Json) (u fname : String)
    (hne : t1 ≠ t2) (h1 : t1.truthy = true) (h2 : t2.truthy = true)
    (hfail : O.urlFetch t1 = .httpFailure ∨ O.urlFetch t1 = .apiError ∨ O.urlFetch t1 = .exn)
    (hok : O.urlFetch t2 = .ok [(t2, u)])
    (hu : pyStartswith u "http" = true)
    (hdl : O.download u = some fname) :
    ∃ r, larkDocsCore O [imageBlock t1, imageBlock t2] = .ok r ∧
      r.success = true ∧
      r.contentParts = [imageTokenFragment 1 t1, imageResolvedFragment 2 O.mcpPort fname] := by
  have hu' : u ≠ "" := startsWith_http_ne_empty u hu
  have hex : extractMediaTokens [imageBlock t1, imageBlock t2] = .ok ([t1, t2], [], []) := by
    simp [extractMediaTokens, extractTokensLoop, imageBlock, Json.getd, Json.idx, Json.member,
      Json.mkObj, JsonObj.ofList, JsonObj.lookup, Json.isNum, h1, h2]
  have hurls : fetchImageUrls O.urlFetch [t1, t2] = [(t2, u)] := by
    rcases hfail with hf | hf | hf <;>
      simp [fetchImageUrls, fetchImageUrlsLoop, h1, h2, hf, hok, hu', dictInsert]
  have hdlm : downloadImages O.download [(t2, u)] = [(t2, fname)] := by
    simp [downloadImages, hu, hu', hdl, dictInsert]
  have hrender : ∀ M : RenderMaps, M.imageFilenameMap = [(t2, fname)] →
      M.imageUrls = [(t2, u)] →
      buildContentParts M [imageBlock t1, imageBlock t2] =
        .ok [imageTokenFragment 1 t1, imageResolvedFragment 2 M.mcpPort fname] := by
    intro M hm1 hm2
    simp [buildContentParts, buildPartsLoop, renderBlock, imageBlock, Json.getd, Json.idx,
      Json.member, Json.mkObj, JsonObj.ofList, JsonObj.lookup, Json.isNum, h1, h2,
      dictLookup, hne, Ne.symm hne, hm1, hm2]
  unfold larkDocsCore
  rw [hex]
  simp only [List.isEmpty_cons, List.isEmpty_nil, Bool.false_eq_true, if_false, if_true,
    hurls, hdlm]
  rw [hrender _ (by simp) (by simp)]
  exact ⟨_, rfl, rfl, rfl⟩

theorem c1_scenario (O : DocsOracles) (t : Json) (u fname : String)
    (ht : t.truthy = true)
    (hok : O.urlFetch t = .ok [(t, u)])
    (hu : pyStartswith u "http" = true)
    (hdl : O.download u = some fname) :
    ∃ r, larkDocsCore O [imageBlock t, imageBlock t] = .ok r ∧
      r.contentParts =
        [imageResolvedFragment 1 O.mcpPort fname, imageResolvedFragment 2 O.mcpPort fname] := by
  have hu' : u ≠ "" := startsWith_http_ne_empty u hu
  have hex : extractMediaTokens [imageBlock t, imageBlock t] = .ok ([t, t], [], []) := by
    simp [extractMediaTokens, extractTokensLoop, imageBlock, Json.getd, Json.idx, Json.member,
      Json.mkObj, JsonObj.ofList, JsonObj.lookup, Json.isNum, ht]
  have hurls : fetchImageUrls O.urlFetch [t, t] = [(t, u)] := by
    simp [fetchImageUrls, fetchImageUrlsLoop, ht, hok, hu', dictInsert]
  have hdlm : downloadImages O.download [(t, u)] = [(t, fname)] := by
    simp [downloadImages, hu, hu', hdl, dictInsert]
  have hrender : ∀ M : RenderMaps, M.imageFilenameMap = [(t, fname)] →
      buildContentParts M [imageBlock t, imageBlock t] =
        .ok [imageResolvedFragment 1 M.mcpPort fname, imageResolvedFragment 2 M.mcpPort fname] := by
    intro M hm1
    simp [buildContentParts, buildPartsLoop, renderBlock, imageBlock, Json.getd, Json.idx,
      Json.member, Json.mkObj, JsonObj.ofList, JsonObj.lookup, Json.isNum, ht,
      dictLookup, hm1]
  unfold larkDocsCore
  rw [hex]
  simp only [List.isEmpty_cons, List.isEmpty_nil, Bool.false_eq_true, if_false, if_true,
    hurls, hdlm]
  rw [hrender _ (by simp)]
  exact ⟨_, rfl, rfl⟩

theorem c1_two_requests (t : Json) (ht : t.truthy = true) :
    fetchImageUrlsRequestCount [t, t] = 2 := by
  simp [fetchImageUrlsRequestCount, ht]

theorem joinStrParts_ok : ∀ (parts : List Json) (acc : String),
    (∀ p ∈ parts, p.isStr = true) → ∃ s, joinStrParts acc parts = .ok s := by
  intro parts
  induction parts with
  | nil => intro acc _; exact ⟨acc, rfl⟩
  | cons p rest ih =>
    intro acc hall
    have hp := hall p (List.mem_cons_self p rest)
    cases p with
    | str t => exact ih (acc ++ t) (fun q hq => hall q (List.mem_cons_of_mem _ hq))
    | null => simp [Json.isStr] at hp
    | bool v => simp [Json.isStr] at hp
    | num v => simp [Json.isStr] at hp
    | arr v => simp [Json.isStr] at hp
    | obj v => simp [Json.isStr] at hp

theorem textPartsLoop_ok : ∀ (elems : List Json) (acc : List Json),
    (∀ e ∈ elems, wellShapedElem e = true) → (∀ p ∈ acc, p.isStr = true) →
    ∃ parts, textPartsLoop acc elems = .ok parts ∧ ∀ p ∈ parts, p.isStr = true := by
  intro elems
  induction elems with
  | nil => intro acc _ hacc; exact ⟨acc, rfl, hacc⟩
  | cons e rest ih =>
    intro acc hall hacc
    have he := hall e (List.mem_cons_self e rest)
    have hrest : ∀ x ∈ rest, wellShapedElem x = true :=
      fun x hx => hall x (List.mem_cons_of_mem _ hx)
    cases e with
    | obj fs =>
      cases hlk : fs.lookup "text_run" with
      | none =>
        have hstep : textPartsLoop acc (Json.obj fs :: rest) = textPartsLoop acc rest := by
          simp [textPartsLoop, Json.getd, hlk, Json.mkObj, JsonObj.ofList, JsonObj.lookup,
            Json.truthy]
        rw [hstep]
        exact ih acc hrest hacc
      | some tr =>
        have he2 : tr.isObj = true ∧
            (match tr.objLookup "content" with
             | none => true
             | some c => c.isStr || !c.truthy) = true := by
          simp only [wellShapedElem, Json.objLookup, hlk, Json.isObj, Bool.true_and] at he
          rw [Bool.and_eq_true] at he
          exact he
        cases tr with
        | obj trf =>
          cases hlc : trf.lookup "content" with
          | none =>
            have hstep : textPartsLoop acc (Json.obj fs :: rest) = textPartsLoop acc rest := by
              simp [textPartsLoop, Json.getd, hlk, hlc, Json.truthy]
            rw [hstep]
            exact ih acc hrest hacc
          | some c =>
            have hc : (c.isStr || !c.truthy) = true := by
              have := he2.2
              simpa [Json.objLookup, hlc] using this
            by_cases hct : c.truthy = true
            · have hcs : c.isStr = true := by
                rw [Bool.or_eq_true] at hc
                rcases hc with h | h
                · exact h
                · rw [hct] at h; cases h
              have hstep : textPartsLoop acc (Json.obj fs :: rest) =
                  textPartsLoop (acc ++ [c]) rest := by
                simp [textPartsLoop, Json.getd, hlk, hlc, hct]
              rw [hstep]
              refine ih (acc ++ [c]) hrest ?_
              intro p hp
              rcases List.mem_append.1 hp with h | h
              · exact hacc p h
              · rw [List.mem_singleton.1 h]; exact hcs
            · have hctf : c.truthy = false := by
                cases hv : c.truthy
                · rfl
                · exact absurd hv hct
              have hstep : textPartsLoop acc (Json.obj fs :: rest) = textPartsLoop acc rest := by
                simp [textPartsLoop, Json.getd, hlk, hlc, hctf]
              rw [hstep]
              exact ih acc hrest hacc
        | null => exact absurd he2.1 (by simp [Json.isObj])
        | bool v => exact absurd he2.1 (by simp [Json.isObj])
        | num v => exact absurd he2.1 (by simp [Json.isObj])
        | str v => exact absurd he2.1 (by simp [Json.isObj])
        | arr v => exact absurd he2.1 (by simp [Json.isObj])
    | null => simp [wellShapedElem, Json.isObj] at he
    | bool v => simp [wellShapedElem, Json.isObj] at he
    | num v => simp [wellShapedElem, Json.isObj] at he
    | str v => simp [wellShapedElem, Json.isObj] at he
    | arr v => simp [wellShapedElem, Json.isObj] at he

theorem extractTextFromElements_ok (xs : JsonArr)
    (hall : ∀ e ∈ xs.toList, wellShapedElem e = true) :
    ∃ s, extractTextFromElements (Json.arr xs) = .ok s := by
  obtain ⟨parts, hp, hps⟩ := textPartsLoop_ok xs.toList [] hall (by intro p hp; cases hp)
  obtain ⟨s, hs⟩ := joinStrParts_ok parts "" hps
  exact ⟨s, by simp [extractTextFromElements, Json.iter, hp, hs]⟩

theorem elemsOf_ok (p : Json) (hp : wellShapedPayload p = true) :
    ∃ xs : JsonArr, p.getd "elements" (Json.arr .nil) = .ok (Json.arr xs) ∧
      ∀ e ∈ xs.toList, wellShapedElem e = true := by
  have hobj : p.isObj = true := by
    rw [wellShapedPayload, Bool.and_eq_true, Bool.and_eq_true, Bool.and_eq_true] at hp
    exact hp.1.1.1
  have hfield : wellShapedElemsField p = true := by
    rw [wellShapedPayload, Bool.and_eq_true, Bool.and_eq_true, Bool.and_eq_true] at hp
    exact hp.1.1.2
  cases p with
  | obj fs =>
    cases hlk : fs.lookup "elements" with
    | none => exact ⟨.nil, by simp [Json.getd, hlk], by intro e he; cases he⟩
    | some v =>
      rw [wellShapedElemsField] at hfield
      simp only [Json.objLookup, hlk] at hfield
      cases v with
      | arr xs =>
        refine ⟨xs, by simp [Json.getd, hlk], ?_⟩
        intro e he
        rw [List.all_eq_true] at hfield
        exact hfield e he
      | null => cases hfield
      | bool w => cases hfield
      | num w => cases hfield
      | str w => cases hfield
      | obj w => cases hfield
  | null => cases hobj
  | bool v => cases hobj
  | num v => cases hobj
  | str v => cases hobj
  | arr v => cases hobj

theorem extractElemsBranch_ok (block : Json) (key : String) (wrap : String → String)
    (payload : Json) (hm : block.objLookup key = some payload)
    (hp : wellShapedPayload payload = true) :
    ∃ s, extractElemsBranch block key wrap = .ok s := by
  cases block with
  | obj fs =>
    rw [Json.objLookup] at hm
    obtain ⟨xs, hel, hallx⟩ := elemsOf_ok payload hp
    obtain ⟨t, ht⟩ := extractTextFromElements_ok xs hallx
    exact ⟨wrap t, by simp [extractElemsBranch, Json.idx, hm, hel, ht]⟩
  | null => cases hm
  | bool v => cases hm
  | num v => cases hm
  | str v => cases hm
  | arr v => cases hm

theorem payload_style_ok (payload : Json) (hp : wellShapedPayload payload = true) :
    ∃ st lang, payload.getd "style" (Json.mkObj []) = .ok st ∧
      st.getd "language" (Json.str "") = .ok lang := by
  have hobj : payload.isObj = true := by
    rw [wellShapedPayload, Bool.and_eq_true, Bool.and_eq_true, Bool.and_eq_true] at hp
    exact hp.1.1.1
  have hstyle : (match payload.objLookup "style" with
      | none => true | some st => st.isObj) = true := by
    rw [wellShapedPayload, Bool.and_eq_true, Bool.and_eq_true, Bool.and_eq_true] at hp
    exact hp.1.2
  cases payload with
  | obj fs =>
    cases hlk : fs.lookup "style" with
    | none =>
      exact ⟨Json.mkObj [], Json.str "",
        by simp [Json.getd, hlk], by simp [Json.getd, Json.mkObj, JsonObj.ofList, JsonObj.lookup]⟩
    | some st =>
      simp only [Json.objLookup, hlk] at hstyle
      cases st with
      | obj sf =>
        exact ⟨Json.obj sf, (sf.lookup "language").getD (Json.str ""),
          by simp [Json.getd, hlk], by simp [Json.getd]⟩
      | null => cases hstyle
      | bool v => cases hstyle
      | num v => cases hstyle
      | str v => cases hstyle
      | arr v => cases hstyle
  | null => cases hobj
  | bool v => cases hobj
  | num v => cases hobj
  | str v => cases hobj
  | arr v => cases hobj

theorem codeBranch_ok (block : Json) (payload : Json)
    (hm : block.objLookup "code" = some payload)
    (hp : wellShapedPayload payload = true) :
    ∃ s, codeBranch block = .ok s := by
  cases block with
  | obj fs =>
    rw [Json.objLookup] at hm
    obtain ⟨xs, hel, hallx⟩ := elemsOf_ok payload hp
    obtain ⟨t, ht⟩ := extractTextFromElements_ok xs hallx
    obtain ⟨st, lang, hst, hlang⟩ := payload_style_ok payload hp
    by_cases hte : t = ""
    · subst hte
      exact ⟨"", by simp [codeBranch, Json.idx, hm, hel, ht]⟩
    · refine ⟨"```" ++ lang.pyStr ++ "\n" ++ t ++ "\n```", ?_⟩
      simp only [codeBranch, Json.idx, hm, hel, ht]
      simp only [bne_iff_ne, ne_eq, hte, not_false_eq_true, if_true]
      rw [hst]
      simp only []
      rw [hlang]
  | null => cases hm
  | bool v => cases hm
  | num v => cases hm
  | str v => cases hm
  | arr v => cases hm

theorem imageTextBranch_ok (block : Json) (payload : Json)
    (hm : block.objLookup "image" = some payload)
    (hp : wellShapedPayload payload = true) :
    ∃ s, imageTextBranch block = .ok s := by
  have hobj : payload.isObj = true := by
    rw [wellShapedPayload, Bool.and_eq_true, Bool.and_eq_true, Bool.and_eq_true] at hp
    exact hp.1.1.1
  cases block with
  | obj fs =>
    rw [Json.objLookup] at hm
    cases payload with
    | obj pf =>
      by_cases ht : ((pf.lookup "token").getD (Json.str "")).truthy = true
      · refine ⟨"[IMAGE_TOKEN:" ++ ((pf.lookup "token").getD (Json.str "")).pyStr ++ "]", ?_⟩
        simp [imageTextBranch, Json.idx, hm, Json.getd, ht]
      · exact ⟨"", by simp [imageTextBranch, Json.idx, hm, Json.getd, ht]⟩
    | null => cases hobj
    | bool v => cases hobj
    | num v => cases hobj
    | str v => cases hobj
    | arr v => cases hobj
  | null => cases hm
  | bool v => cases hm
  | num v => cases hm
  | str v => cases hm
  | arr v => cases hm

theorem sheetTextBranch_ok (block : Json) (payload : Json)
    (hm : block.objLookup "sheet" = some payload)
    (hp : wellShapedPayload payload = true) :
    ∃ s, sheetTextBranch block = .ok s := by
  have hobj : payload.isObj = true := by
    rw [wellShapedPayload, Bool.and_eq_true, Bool.and_eq_true, Bool.and_eq_true] at hp
    exact hp.1.1.1
  cases block with
  | obj fs =>
    rw [Json.objLookup] at hm
    cases payload with
    | obj pf =>
      by_cases ht : ((pf.lookup "token").getD (Json.str "")).truthy = true
      · refine ⟨"[SHEET_TOKEN:" ++ ((pf.lookup "token").getD (Json.str "")).pyStr ++ "]", ?_⟩
        simp [sheetTextBranch, Json.idx, hm, Json.getd, ht]
      · exact ⟨"[SHEET]", by simp [sheetTextBranch, Json.idx, hm, Json.getd, ht]⟩
    | null => cases hobj
    | bool v => cases hobj
    | num v => cases hobj
    | str v => cases hobj
    | arr v => cases hobj
  | null => cases hm
  | bool v => cases hm
  | num v => cases hm
  | str v => cases hm
  | arr v => cases hm

theorem tableTextBranch_ok (block : Json) (payload : Json)
    (hm : block.objLookup "table" = some payload)
    (hp : wellShapedPayload payload = true) :
    ∃ s, tableTextBranch block = .ok s := by
  have hobj : payload.isObj = true := by
    rw [wellShapedPayload, Bool.and_eq_true, Bool.and_eq_true, Bool.and_eq_true] at hp
    exact hp.1.1.1
  have hprop : (match payload.objLookup "property" with
      | none => true | some pr => pr.isObj) = true := by
    rw [wellShapedPayload, Bool.and_eq_true, Bool.and_eq_true, Bool.and_eq_true] at hp
    exact hp.2
  cases block with
  | obj fs =>
    rw [Json.objLookup] at hm
    cases payload with
    | obj pf =>
      cases hlk : pf.lookup "property" with
      | none =>
        refine ⟨"[TABLE: " ++ (Json.num 0).pyStr ++ "x" ++ (Json.num 0).pyStr ++ " cells]", ?_⟩
        simp [tableTextBranch, Json.idx, hm, Json.getd, hlk, Json.mkObj,
          JsonObj.ofList, JsonObj.lookup]
      | some pr =>
        simp only [Json.objLookup, hlk] at hprop
        cases pr with
        | obj prf =>
          refine ⟨"[TABLE: " ++ ((prf.lookup "row_size").getD (Json.num 0)).pyStr ++ "x" ++
            ((prf.lookup "column_size").getD (Json.num 0)).pyStr ++ " cells]", ?_⟩
          simp [tableTextBranch, Json.idx, hm, Json.getd, hlk]
        | null => cases hprop
        | bool v => cases hprop
        | num v => cases hprop
        | str v => cases hprop
        | arr v => cases hprop
    | null => cases hobj
    | bool v => cases hobj
    | num v => cases hobj
    | str v => cases hobj
    | arr v => cases hobj
  | null => cases hm
  | bool v => cases hm
  | num v => cases hm
  | str v => cases hm
  | arr v => cases hm

set_option maxHeartbeats 1600000 in
/-- Claim C7, amended: for every block that is a JSON object whose present
payload fields are well-shaped (payload fields are dicts, element lists are
lists of dicts whose text-run contents are strings or falsy, style and
property fields are dicts), `_extract_text_from_block` returns a defined
(possibly empty) string for every block type, declared or not. -/
theorem c7_amended (b : Json) (hb : wellShapedBlock b = true) :
    ∃ s, extractTextFromBlock b = .ok s := by
  have hobj : b.isObj = true := by
    rw [wellShapedBlock, Bool.and_eq_true] at hb
    exact hb.1
  have hkeys : ∀ (k : String) (payload : Json), k ∈ payloadFieldKeys →
      b.objLookup k = some payload → wellShapedPayload payload = true := by
    intro k payload hk hlk
    rw [wellShapedBlock, Bool.and_eq_true] at hb
    have hall := hb.2
    rw [List.all_eq_true] at hall
    have := hall k hk
    simp only [hlk] at this
    exact this
  cases b with
  | obj fs =>
    have getp : ∀ key : String, Json.member (Json.obj fs) key = true →
        ∃ payload, (Json.obj fs).objLookup key = some payload := by
      intro key hmem
      rw [Json.member] at hmem
      obtain ⟨payload, hlk⟩ := Option.isSome_iff_exists.1 hmem
      exact ⟨payload, by simp [Json.objLookup, hlk]⟩
    have main : ∀ (key : String) (wrap : String → String),
        Json.member (Json.obj fs) key = true → key ∈ payloadFieldKeys →
        ∃ s, extractElemsBranch (Json.obj fs) key wrap = .ok s := by
      intro key wrap hmem hin
      obtain ⟨payload, hlk⟩ := getp key hmem
      exact extractElemsBranch_ok _ _ _ payload hlk (hkeys key payload hin hlk)
    unfold extractTextFromBlock
    simp only [Json.getd]
    by_cases h1 : (((fs.lookup "block_type").getD Json.null).isNum 1 && (Json.obj fs).member "page") = true
    · rw [if_pos h1]
      exact main "page" (fun t => t) (by rw [Bool.and_eq_true] at h1; exact h1.2) (by decide)
    rw [if_neg h1]
    by_cases h2 : (((fs.lookup "block_type").getD Json.null).isNum 2 && (Json.obj fs).member "text") = true
    · rw [if_pos h2]
      exact main "text" (fun t => t) (by rw [Bool.and_eq_true] at h2; exact h2.2) (by decide)
    rw [if_neg h2]
    by_cases h3 : (((fs.lookup "block_type").getD Json.null).isNum 3 && (Json.obj fs).member "heading1") = true
    · rw [if_pos h3]
      exact main "heading1" (markWrap "#") (by rw [Bool.and_eq_true] at h3; exact h3.2) (by decide)
    rw [if_neg h3]
    by_cases h4 : (((fs.lookup "block_type").getD Json.null).isNum 4 && (Json.obj fs).member "heading2") = true
    · rw [if_pos h4]
      exact main "heading2" (markWrap "##") (by rw [Bool.and_eq_true] at h4; exact h4.2) (by decide)
    rw [if_neg h4]
    by_cases h5 : (((fs.lookup "block_type").getD Json.null).isNum 5 && (Json.obj fs).member "heading3") = true
    · rw [if_pos h5]
      exact main "heading3" (markWrap "###") (by rw [Bool.and_eq_true] at h5; exact h5.2) (by decide)
    rw [if_neg h5]
    by_cases h6 : (((fs.lookup "block_type").getD Json.null).isNum 6 && (Json.obj fs).member "heading4") = true
    · rw [if_pos h6]
      exact main "heading4" (markWrap "####") (by rw [Bool.and_eq_true] at h6; exact h6.2) (by decide)
    rw [if_neg h6]
    by_cases h7 : (((fs.lookup "block_type").getD Json.null).isNum 7 && (Json.obj fs).member "heading5") = true
    · rw [if_pos h7]
      exact main "heading5" (markWrap "#####") (by rw [Bool.and_eq_true] at h7; exact h7.2) (by decide)
    rw [if_neg h7]
    by_cases h8 : (((fs.lookup "block_type").getD Json.null).isNum 8 && (Json.obj fs).member "heading6") = true
    · rw [if_pos h8]
      exact main "heading6" (markWrap "######") (by rw [Bool.and_eq_true] at h8; exact h8.2) (by decide)
    rw [if_neg h8]
    by_cases h9 : (((fs.lookup "block_type").getD Json.null).isNum 9 && (Json.obj fs).member "heading7") = true
    · rw [if_pos h9]
      exact main "heading7" (markWrap "#######") (by rw [Bool.and_eq_true] at h9; exact h9.2) (by decide)
    rw [if_neg h9]
    by_cases h10 : (((fs.lookup "block_type").getD Json.null).isNum 10 && (Json.obj fs).member "heading8") = true
    · rw [if_pos h10]
      exact main "heading8" (markWrap "########") (by rw [Bool.and_eq_true] at h10; exact h10.2) (by decide)
    rw [if_neg h10]
    by_cases h11 : (((fs.lookup "block_type").getD Json.null).isNum 11 && (Json.obj fs).member "heading9") = true
    · rw [if_pos h11]
      exact main "heading9" (markWrap "#########") (by rw [Bool.and_eq_true] at h11; exact h11.2) (by decide)
    rw [if_neg h11]
    by_cases h12 : (((fs.lookup "block_type").getD Json.null).isNum 12 && (Json.obj fs).member "bullet") = true
    · rw [if_pos h12]
      exact main "bullet" (markWrap "-") (by rw [Bool.and_eq_true] at h12; exact h12.2) (by decide)
    rw [if_neg h12]
    by_cases h13 : (((fs.lookup "block_type").getD Json.null).isNum 13 && (Json.obj fs).member "ordered") = true
    · rw [if_pos h13]
      exact main "ordered" (markWrap "1.") (by rw [Bool.and_eq_true] at h13; exact h13.2) (by decide)
    rw [if_neg h13]
    by_cases h14 : (((fs.lookup "block_type").getD Json.null).isNum 14 && (Json.obj fs).member "code") = true
    · rw [if_pos h14]
      obtain ⟨payload, hlk⟩ := getp "code" (by rw [Bool.and_eq_true] at h14; exact h14.2)
      exact codeBranch_ok _ payload hlk (hkeys "code" payload (by decide) hlk)
    rw [if_neg h14]
    by_cases h15 : (((fs.lookup "block_type").getD Json.null).isNum 27 && (Json.obj fs).member "image") = true
    · rw [if_pos h15]
      obtain ⟨payload, hlk⟩ := getp "image" (by rw [Bool.and_eq_true] at h15; exact h15.2)
      exact imageTextBranch_ok _ payload hlk (hkeys "image" payload (by decide) hlk)
    rw [if_neg h15]
    by_cases h16 : (((fs.lookup "block_type").getD Json.null).isNum 31 && (Json.obj fs).member "table") = true
    · rw [if_pos h16]
      obtain ⟨payload, hlk⟩ := getp "table" (by rw [Bool.and_eq_true] at h16; exact h16.2)
      exact tableTextBranch_ok _ payload hlk (hkeys "table" payload (by decide) hlk)
    rw [if_neg h16]
    by_cases h17 : (((fs.lookup "block_type").getD Json.null).isNum 30 && (Json.obj fs).member "sheet") = true
    · rw [if_pos h17]
      obtain ⟨payload, hlk⟩ := getp "sheet" (by rw [Bool.and_eq_true] at h17; exact h17.2)
      exact sheetTextBranch_ok _ payload hlk (hkeys "sheet" payload (by decide) hlk)
    rw [if_neg h17]
    by_cases h18 : (((fs.lookup "block_type").getD Json.null).isNum 43 && (Json.obj fs).member "board") = true
    · rw [if_pos h18]
      exact ⟨"[BOARD]", rfl⟩
    rw [if_neg h18]
    exact ⟨"", rfl⟩
  | null => cases hobj
  | bool v => cases hobj
  | num v => cases hobj
  | str v => cases hobj
  | arr v => cases hobj

/-- Claim C7, counterexample: a type-27 block whose `image` payload is a string
makes `_extract_text_from_block` raise `AttributeError` instead of returning
a string, refuting totality over arbitrary payload shapes. -/
theorem c7_counterexample :
    extractTextFromBlock malformedImageBlock =
      .error "AttributeError: object has no attribute get" ∧
    ¬ ∃ s, extractTextFromBlock malformedImageBlock = .ok s := by
  refine ⟨by decide, ?_⟩
  rintro ⟨s, hs⟩
  rw [show extractTextFromBlock malformedImageBlock =
      .error "AttributeError: object has no attribute get" from by decide] at hs
  exact Except.noConfusion hs

/-- Witness for the amended claim C7 on a concrete well-shaped heading block. -/
theorem c7_witness :
    wellShapedBlock (textRunBlock 4 "heading2" "Intro") = true ∧
    ∃ s, extractTextFromBlock (textRunBlock 4 "heading2" "Intro") = .ok s :=
  ⟨by decide, c7_amended _ (by decide)⟩

/-- Claim C5, amended: the `Board N:` number of a token is the 1-based position
of its **last** occurrence in the board-token occurrence list (the enumerate
dict is last-write-wins), not a first-seen per-distinct-token numbering; all
occurrences of the same token still render with the same number, as the
[a, b, a] document shows (headers 3, 2, 3). -/
theorem c5_claim :
    (∀ (toks : List Json) (t : Json),
      dictLookup (buildBoardIndex toks) t = lastIndexFrom 1 t toks) ∧
    (∀ (O : DocsOracles) (a b : Json) (sa sb : String),
      a.truthy = true → b.truthy = true → a ≠ b →
      O.boardParse a = some sa → O.boardParse b = some sb →
      O.boardImage a = none → O.boardImage b = none →
      ∃ r, larkDocsCore O [boardBlock a, boardBlock b, boardBlock a] = .ok r ∧
        r.contentParts =
          [String.intercalate "\n" [boardHeaderFragment 3, sa],
           String.intercalate "\n" [boardHeaderFragment 2, sb],
           String.intercalate "\n" [boardHeaderFragment 3, sa]]) :=
  ⟨buildBoardIndex_lookup,
   fun O a b sa sb ha hb hab hpa hpb hia hib =>
     c5_scenario O a b sa sb ha hb hab hpa hpb hia hib⟩

/-- Claim C5, counterexample: with board tokens A, B, A the first A-block renders
under `Board 3:` rather than the `Board 1:` required by first-seen numbering. -/
theorem c5_counterexample :
    (larkDocsCore boardParseOracles
        [boardBlock (Json.str "A"), boardBlock (Json.str "B"), boardBlock (Json.str "A")]).map
      DocsResult.contentParts =
      .ok ["**Board 3:**\n\nP", "**Board 2:**\n\nP", "**Board 3:**\n\nP"] ∧
    ("**Board 1:**".data.isPrefixOf "**Board 3:**\n\nP".data) = false := by decide

/-- Witness for the amended claim C5 at concrete tokens. -/
theorem c5_witness :
    dictLookup (buildBoardIndex [Json.str "A", Json.str "B", Json.str "A"]) (Json.str "A") =
      lastIndexFrom 1 (Json.str "A") [Json.str "A", Json.str "B", Json.str "A"] ∧
    ∃ r, larkDocsCore boardParseOracles
        [boardBlock (Json.str "A"), boardBlock (Json.str "B"), boardBlock (Json.str "A")] =
        .ok r ∧
      r.contentParts =
        [String.intercalate "\n" [boardHeaderFragment 3, "P"],
         String.intercalate "\n" [boardHeaderFragment 2, "P"],
         String.intercalate "\n" [boardHeaderFragment 3, "P"]] :=
  ⟨c5_claim.1 _ _,
   c5_claim.2 boardParseOracles (Json.str "A") (Json.str "B") "P" "P"
     (by decide) (by decide) (by decide) rfl rfl rfl rfl⟩

/-- Witness for claim C4 at concrete tokens and oracles. -/
theorem c4_witness :
    ∃ r, larkDocsCore splitImageOracles
        [imageBlock (Json.str "t1"), imageBlock (Json.str "t2")] = .ok r ∧
      r.success = true ∧
      r.contentParts = [imageTokenFragment 1 (Json.str "t1"),
        imageResolvedFragment 2 splitImageOracles.mcpPort "f.png"] :=
  c4_claim splitImageOracles (Json.str "t1") (Json.str "t2") "http://u" "f.png"
    (by decide) (by decide) (by decide) (Or.inl (by decide)) (by decide) (by decide) (by decide)

/-- Claim C1, amended: the image-URL resolution step issues one request per
occurrence of a non-empty token (two for a duplicated token), but the URL and
filename maps are keyed by token, so both occurrences of the token render with
the same resolved local filename. -/
theorem c1_claim (O : DocsOracles) (t : Json) (u fname : String)
    (ht : t.truthy = true)
    (hok : O.urlFetch t = .ok [(t, u)])
    (hu : pyStartswith u "http" = true)
    (hdl : O.download u = some fname) :
    fetchImageUrlsRequestCount [t, t] = 2 ∧
    ∃ r, larkDocsCore O [imageBlock t, imageBlock t] = .ok r ∧
      r.contentParts =
        [imageResolvedFragment 1 O.mcpPort fname, imageResolvedFragment 2 O.mcpPort fname] :=
  ⟨c1_two_requests t ht, c1_scenario O t u fname ht hok hu hdl⟩

/-- Witness for the amended claim C1 at a concrete token and oracle. -/
theorem c1_witness :
    fetchImageUrlsRequestCount [Json.str "t", Json.str "t"] = 2 ∧
    ∃ r, larkDocsCore sameImageOracles [imageBlock (Json.str "t"), imageBlock (Json.str "t")] =
        .ok r ∧
      r.contentParts =
        [imageResolvedFragment 1 sameImageOracles.mcpPort "f.png",
         imageResolvedFragment 2 sameImageOracles.mcpPort "f.png"] :=
  c1_claim sameImageOracles (Json.str "t") "http://u" "f.png"
    (by decide) (by decide) (by decide) (by decide)
